import Mathlib

/-!
Shallow embedding of the query-to-predicate compiler of `django-rql`
(`dj_rql/filter_cls.py` and `dj_rql/transformer.py`).

Raw RQL values are modelled as `List Char` (Python `str`); public filter
names, ORM routes and grammar operators are Lean `String`s.  Python
exceptions are modelled with `Except`.  External collaborators (the Python
float/int parsers, Django's `parse_date`/`parse_datetime`, `round`) are
passed in as an explicit `ExternalParsers` record, mirroring the fact that
the source delegates to them and only routes their results/errors.
-/

set_option autoImplicit false

namespace DjRql

/-! ### Reserved literals

`dj_rql/constants.py` is not part of the sources.  Modelled from the spec:
"Reserved literals: null sentinel, empty-value sentinel, boolean true/false
literals, free-text search filter name, wildcard symbol — all fixed,
schema-independent tokens recognized by the core" (§6).  The wildcard symbol
is forced to `*` by `_build_q_for_search` (lines 261/264 concatenate a
literal `'*'` with values tested against `RQL_ANY_SYMBOL`); the remaining
token spellings are those of the released library and none of the theorems
below depends on the exact spelling, only on the tokens being fixed. -/

def RQL_ANY_SYMBOL : Char := '*'

def RQL_NULL : List Char := "null()".data

def RQL_EMPTY : List Char := "empty()".data

def RQL_TRUE : List Char := "true".data

def RQL_FALSE : List Char := "false".data

def RQL_SEARCH_PARAM : String := "search"

/-! ### Python string primitives on `List Char`

`str.replace`, `str.split` (on a multi-character separator), `str.join`,
`in` (substring test).  `replace` and `split` scan left to right consuming
non-overlapping occurrences; they are written with an explicit fuel equal to
the length of the scanned list so that they stay structurally recursive and
kernel-reducible. -/

/-- One step of Python `str.replace`, with fuel.  `pat` is required to be
nonempty at every call site (Python's `''.replace` behaves differently). -/
def replaceFuel (pat rep : List Char) : Nat → List Char → List Char
  | 0, s => s
  | _ + 1, [] => []
  | n + 1, c :: cs =>
    if pat ≠ [] ∧ pat.isPrefixOf (c :: cs) then
      rep ++ replaceFuel pat rep n (List.drop (pat.length - 1) cs)
    else
      c :: replaceFuel pat rep n cs

/-- Python `s.replace(pat, rep)` for nonempty `pat`. -/
def pyReplace (pat rep s : List Char) : List Char :=
  replaceFuel pat rep s.length s

/-- One step of Python `str.split` on a (nonempty) separator, with fuel. -/
def splitFuel (sep : List Char) : Nat → List Char → List (List Char)
  | 0, s => [s]
  | _ + 1, [] => [[]]
  | n + 1, c :: cs =>
    if sep ≠ [] ∧ sep.isPrefixOf (c :: cs) then
      [] :: splitFuel sep n (List.drop (sep.length - 1) cs)
    else
      match splitFuel sep n cs with
      | [] => [[c]]
      | h :: t => (c :: h) :: t

/-- Python `s.split(sep)` for nonempty `sep`. -/
def pySplit (sep s : List Char) : List (List Char) :=
  splitFuel sep s.length s

/-- Python `sep.join(parts)`. -/
def pyJoin (sep : List Char) : List (List Char) → List Char
  | [] => []
  | [x] => x
  | x :: y :: xs => x ++ sep ++ pyJoin sep (y :: xs)

/-- Python `pat in s` (substring containment). -/
def pyContains (pat : List Char) : List Char → Bool
  | [] => pat.isEmpty
  | c :: cs => pat.isPrefixOf (c :: cs) || pyContains pat cs

/-- Split on a single character; Python `s.split('.')` used by the
selection resolver.  Structurally recursive. -/
def splitOnChar (a : Char) : List Char → List (List Char)
  | [] => [[]]
  | c :: cs =>
    if c = a then
      [] :: splitOnChar a cs
    else
      match splitOnChar a cs with
      | [] => [[c]]
      | h :: t => (c :: h) :: t

/-- `'.'.split` at the `String` level (the selection resolver works with
dotted `String` names). -/
def splitDots (s : String) : List String :=
  (splitOnChar '.' s.data).map fun l => ⟨l⟩

/-! ### Enumerations from `dj_rql/constants.py`

The grammar operators are plain strings in the source
(`ComparisonOperators.EQ = 'eq'`, ...); they stay `String`s here.  The
lookup enumerations are modelled as inductives. -/

inductive FilterLookups where
  | EQ | NE | LT | LE | GT | GE | IN | OUT | NULL | LIKE | I_LIKE
  deriving DecidableEq, Repr

inductive DjangoLookups where
  | EXACT | I_EXACT | LT | LTE | GT | GTE | NULL
  | REGEX | I_REGEX | CONTAINS | I_CONTAINS
  | STARTSWITH | I_STARTSWITH | ENDSWITH | I_ENDSWITH
  deriving DecidableEq, Repr

inductive FilterTypes where
  | FLOAT | DECIMAL | DATE | DATETIME | BOOLEAN | INT | STRING
  deriving DecidableEq, Repr

/-! ### Typed values and Django fields -/

/-- A db value appearing in a Django `choices` declaration. -/
inductive ChoiceVal where
  | int (i : Int)
  | str (s : List Char)
  deriving DecidableEq, Repr

/-- Python `str()` of a choices db value. -/
def ChoiceVal.pyStr : ChoiceVal → List Char
  | .int i => (toString i).data
  | .str s => s

/-- Python `choice == value` for a flat choices list (`int == str` is
always `False` in Python). -/
def ChoiceVal.pyEq : ChoiceVal → List Char → Bool
  | .int _, _ => false
  | .str s, v => s = v

/-- The three shapes a Django `choices` declaration can take in
`_get_choices_field_db_value`: a `Choices` class, a tuple of
`(db_value, representation)` pairs, or a flat list. -/
inductive FieldChoices where
  | choicesClass (cs : List (ChoiceVal × List Char))
  | pairs (cs : List (ChoiceVal × List Char))
  | flat (cs : List ChoiceVal)
  deriving DecidableEq, Repr

/-- Python truthiness of the `choices` attribute (`if not choices`). -/
def FieldChoices.isEmptyChoices : FieldChoices → Bool
  | .choicesClass cs => cs.isEmpty
  | .pairs cs => cs.isEmpty
  | .flat cs => cs.isEmpty

/-- The value produced by value coercion (`_convert_value` /
`_get_typed_value`) and stored inside a `Q` leaf.  The source never
produces a `date`/`datetime` payload — validated date literals fall through
as strings — but the constructors exist so that the distinction is
expressible. -/
inductive TypedValue where
  | bool (b : Bool)
  | int (i : Int)
  | float (q : ℚ)
  | str (s : List Char)
  | date (d : Nat)
  | datetime (d : Nat)
  deriving DecidableEq, Repr

def ChoiceVal.toTyped : ChoiceVal → TypedValue
  | .int i => .int i
  | .str s => .str s

/-- The slice of a Django model field consulted by the source: its filter
type (`FilterTypes.field_filter_type`), `decimal_places`, `blank`, `null`,
whether it is the model's primary key (`_is_pk_field`), and `choices`. -/
structure DjangoField where
  filterType : FilterTypes
  decimal_places : Nat
  blank : Bool
  null : Bool
  is_pk : Bool
  choices : Option FieldChoices
  deriving DecidableEq, Repr

/-- External parsing/rounding collaborators (`float`, `int`, Django's
`parse_date`/`parse_datetime`, Python's `round`).  Dates/datetimes are kept
abstract (`Nat` ordinals). -/
structure ExternalParsers where
  parseFloat : List Char → Option ℚ
  pyRound : ℚ → Nat → ℚ
  parseInt : List Char → Option Int
  parseDate : List Char → Option Nat
  parseDatetime : List Char → Option Nat

/-! ### Errors

`RQLFilterLookupError` and `RQLFilterValueError` carry the detail triple
built by `_get_error_details`; `RQLFilterParsingError` carries its message.
`keyError` models an uncaught Python `KeyError` (unknown grammar operator),
`pyValueError` an uncaught plain `ValueError`, and `runtimeError` the bare
`raise` statements of `_build_rql_select`. -/

structure ErrorDetails where
  filter : String
  lookup : FilterLookups
  value : List Char
  deriving DecidableEq, Repr

inductive RQLError where
  | lookupError (d : ErrorDetails)
  | valueError (d : ErrorDetails)
  | parsingError (msg : String)
  | keyError
  | pyValueError
  | runtimeError
  deriving DecidableEq, Repr

/-! ### Django `Q` objects

A `Q` leaf records the ORM route, the Django lookup and the typed value
(the source spells the kwargs key `'{}__{}'.format(orm_route, lookup)`;
route and lookup are kept as separate components here).  `Q()` (the empty,
neutral object) is a distinct constructor; `orQ`/`andQ` mirror Django's
`_combine`, which drops an empty operand instead of nesting it. -/

structure QLeaf where
  orm_route : String
  lookup : DjangoLookups
  value : TypedValue
  deriving DecidableEq, Repr

inductive Q where
  | empty
  | leaf (l : QLeaf)
  | and (a b : Q)
  | or (a b : Q)
  | not (a : Q)
  deriving DecidableEq, Repr

def Q.orQ : Q → Q → Q
  | .empty, b => b
  | a, .empty => a
  | a, b => .or a b

def Q.andQ : Q → Q → Q
  | .empty, b => b
  | a, .empty => a
  | a, b => .and a b

/-- Boolean semantics of a `Q` tree against a row, abstracted by a leaf
valuation `ρ`.  The empty `Q` used as a filter matches everything. -/
def Q.eval (ρ : QLeaf → Bool) : Q → Bool
  | .empty => true
  | .leaf l => ρ l
  | .and a b => a.eval ρ && b.eval ρ
  | .or a b => a.eval ρ || b.eval ρ
  | .not a => !a.eval ρ

/-! ### The compiled Filter Registry -/

/-- The flat mapped item produced by `_build_mapped_item` for one
underlying source. -/
structure MappedItem where
  field : DjangoField
  orm_route : String
  lookups : List FilterLookups
  null_values : List (List Char)
  distinct : Bool
  use_repr : Option Bool
  deriving DecidableEq, Repr

/-- A `custom: True` filter declaration as stored in the registry; the base
accessors `.get('lookups', set())`, `.get('null_values', set())`,
`.get('distinct')` read these fields. -/
structure CustomItem where
  lookups : List FilterLookups
  null_values : List (List Char)
  distinct : Bool
  deriving DecidableEq, Repr

/-- A Filter Registry entry: a single mapped item, an ordered list of
mapped items (multi-source fan-out, `'sources'`), or a custom marker. -/
inductive FilterItem where
  | single (m : MappedItem)
  | many (ms : List MappedItem)
  | custom (c : CustomItem)
  deriving DecidableEq, Repr

/-- The attributes `build_q_for_filter` reads off the base item. -/
structure FilterBase where
  lookups : List FilterLookups
  null_values : List (List Char)
  distinct : Bool
  deriving DecidableEq, Repr

def MappedItem.baseOf (m : MappedItem) : FilterBase :=
  ⟨m.lookups, m.null_values, m.distinct⟩

def CustomItem.baseOf (c : CustomItem) : FilterBase :=
  ⟨c.lookups, c.null_values, c.distinct⟩

/-- `get_filter_base_item`: the first item of a fan-out list, the item
itself otherwise; `None` when the entry is an empty (falsy) list. -/
def FilterItem.base : FilterItem → Option FilterBase
  | .single m => some m.baseOf
  | .many ms => ms.head?.map MappedItem.baseOf
  | .custom c => some c.baseOf

/-- The per-instance state of an `RQLFilterClass` consulted at query time:
the compiled registry, the ordering/search registries, the extended search
routes and the `DISTINCT` default, plus the two dynamically-dispatched
custom hooks (`build_q_for_custom_filter`, `build_name_for_custom_ordering`)
whose base implementations raise. -/
structure FilterState where
  filters : List (String × FilterItem)
  search_filters : List String
  ordering_filters : List String
  extended_search_orm_routes : List String
  distinct_default : Bool
  customBuilder :
    String → String → List Char → Option String → FilterLookups → DjangoLookups →
      Except RQLError Q
  customOrderingName : String → Except RQLError String

/-- Base implementation of `build_q_for_custom_filter` (always raises). -/
def build_q_for_custom_filter_base (filter_name : String) (_operator : String)
    (_str_value : List Char) (_list_operator : Option String)
    (_filter_lookup : FilterLookups) (_django_lookup : DjangoLookups) :
    Except RQLError Q :=
  .error (.parsingError ("Filter logic is not implemented: " ++ filter_name ++ "."))

/-- Base implementation of `build_name_for_custom_ordering` (always raises). -/
def build_name_for_custom_ordering_base (filter_name : String) :
    Except RQLError String :=
  .error (.parsingError ("Ordering logic is not implemented: " ++ filter_name ++ "."))

/-- `get_filter_base_item` at the `FilterState` level. -/
def get_filter_base_item (st : FilterState) (filter_name : String) :
    Option FilterBase :=
  (List.lookup filter_name st.filters).bind FilterItem.base

/-! ### Value helpers shared by the predicate builder -/

/-- `remove_quotes`: strip one layer of surrounding quotes
(Python `str_value[1:-1]` when the first character is a quote). -/
def remove_quotes (str_value : List Char) : List Char :=
  match str_value with
  | [] => []
  | c :: cs => if c = '"' ∨ c = '\'' then cs.dropLast else c :: cs

/-- `_get_filter_lookup_by_operator`; an unknown grammar operator is a
Python `KeyError` (`none`). -/
def get_filter_lookup_by_operator (grammar_operator : String) :
    Option FilterLookups :=
  if grammar_operator = "eq" then some .EQ
  else if grammar_operator = "ne" then some .NE
  else if grammar_operator = "lt" then some .LT
  else if grammar_operator = "le" then some .LE
  else if grammar_operator = "gt" then some .GT
  else if grammar_operator = "ge" then some .GE
  else if grammar_operator = "like" then some .LIKE
  else if grammar_operator = "ilike" then some .I_LIKE
  else none

/-- `_is_searching_lookup`. -/
def is_searching_lookup (filter_lookup : FilterLookups) : Bool :=
  filter_lookup = FilterLookups.LIKE ∨ filter_lookup = FilterLookups.I_LIKE

/-- The body of `_get_filter_lookup` once the grammar operator has been
resolved: validates the lookup against the permitted set, with the
null-sentinel and empty-sentinel special cases. -/
def get_filter_lookup_checked (filter_name : String)
    (filter_lookup : FilterLookups) (str_value : List Char)
    (available_lookups : List FilterLookups)
    (null_values : List (List Char)) : Except RQLError FilterLookups :=
  if str_value ∈ null_values ∧
      (FilterLookups.NULL ∉ available_lookups ∨
        ¬(filter_lookup = .EQ ∨ filter_lookup = .NE)) then
    .error (.lookupError ⟨filter_name, filter_lookup, str_value⟩)
  else if filter_lookup ∉
      (if str_value = RQL_EMPTY then [FilterLookups.EQ, FilterLookups.NE]
        else available_lookups) then
    .error (.lookupError ⟨filter_name, filter_lookup, str_value⟩)
  else
    .ok filter_lookup

/-- `_get_filter_lookup`. -/
def get_filter_lookup (filter_name : String) (operator : String)
    (str_value : List Char) (available_lookups : List FilterLookups)
    (null_values : List (List Char)) : Except RQLError FilterLookups :=
  match get_filter_lookup_by_operator operator with
  | none => .error .keyError
  | some filter_lookup =>
    get_filter_lookup_checked filter_name filter_lookup str_value
      available_lookups null_values

/-! ### Wildcard pattern translation -/

/-- `_reflect_like_value`: protect backslash-escaped wildcards with the
random nonce (`uuid4().hex` in the source; here an explicit parameter),
collapsing escaped backslashes.  `'\\'.join(v.replace('\*', nonce) for v in
remove_quotes(s).split('\\\\'))`. -/
def reflect_like_value (nonce : List Char) (str_value : List Char) : List Char :=
  pyJoin ['\\']
    ((pySplit ['\\', '\\'] (remove_quotes str_value)).map
      (pyReplace ['\\', '*'] nonce))

/-- The pattern kind chosen by `_get_searching_django_lookup` from the
wildcard placement of the reflected value. -/
inductive SearchPattern where
  | EXACT | REGEX | CONTAINS | STARTSWITH | ENDSWITH
  deriving DecidableEq, Repr

def searching_pattern (val : List Char) : SearchPattern :=
  if RQL_ANY_SYMBOL ∉ val then .EXACT
  else if val = [RQL_ANY_SYMBOL] then .REGEX
  else
    let sep_count := val.count RQL_ANY_SYMBOL
    if sep_count = 1 then
      if val.head? = some RQL_ANY_SYMBOL then .ENDSWITH
      else if val.getLast? = some RQL_ANY_SYMBOL then .STARTSWITH
      else .REGEX
    else if sep_count = 2 ∧ val.head? = some RQL_ANY_SYMBOL ∧
        val.getLast? = some RQL_ANY_SYMBOL then .CONTAINS
    else .REGEX

/-- `getattr(DjangoLookups, prefix + pattern)`: the `I_`-prefixed lookup
when the filter lookup is `I_LIKE`. -/
def pattern_lookup : Bool → SearchPattern → DjangoLookups
  | false, .EXACT => .EXACT
  | false, .REGEX => .REGEX
  | false, .CONTAINS => .CONTAINS
  | false, .STARTSWITH => .STARTSWITH
  | false, .ENDSWITH => .ENDSWITH
  | true, .EXACT => .I_EXACT
  | true, .REGEX => .I_REGEX
  | true, .CONTAINS => .I_CONTAINS
  | true, .STARTSWITH => .I_STARTSWITH
  | true, .ENDSWITH => .I_ENDSWITH

/-- `_get_searching_django_lookup`. -/
def get_searching_django_lookup (nonce : List Char)
    (filter_lookup : FilterLookups) (str_value : List Char) : DjangoLookups :=
  pattern_lookup (filter_lookup = FilterLookups.I_LIKE)
    (searching_pattern (reflect_like_value nonce str_value))

/-- The non-greedy any-characters sub-pattern `(.*?)`. -/
def any_symbol_regex : List Char := "(.*?)".data

/-- The heart of `_get_searching_typed_value`, operating on the reflected
value `val`. -/
def searching_typed_core (nonce : List Char) (django_lookup : DjangoLookups)
    (val : List Char) : Except Unit (List Char) :=
  if pyContains [RQL_ANY_SYMBOL, RQL_ANY_SYMBOL] val then
    .error ()
  else if django_lookup ≠ DjangoLookups.REGEX ∧
      django_lookup ≠ DjangoLookups.I_REGEX then
    .ok (pyReplace nonce [RQL_ANY_SYMBOL] (pyReplace [RQL_ANY_SYMBOL] [] val))
  else if val = [RQL_ANY_SYMBOL] then
    .ok any_symbol_regex
  else
    let new_val := if val.head? = some RQL_ANY_SYMBOL then val.drop 1
      else '^' :: val
    let new_val := if val.getLast? = some RQL_ANY_SYMBOL then new_val.dropLast
      else new_val ++ ['$']
    .ok (pyReplace nonce [RQL_ANY_SYMBOL]
      (pyReplace [RQL_ANY_SYMBOL] any_symbol_regex new_val))

/-- `_get_searching_typed_value` (raises a plain `ValueError` on a value
containing two consecutive wildcards). -/
def get_searching_typed_value (nonce : List Char)
    (django_lookup : DjangoLookups) (str_value : List Char) :
    Except Unit (List Char) :=
  searching_typed_core nonce django_lookup (reflect_like_value nonce str_value)

/-- `_get_django_lookup`. -/
def get_django_lookup (nonce : List Char) (filter_lookup : FilterLookups)
    (str_value : List Char) (null_values : List (List Char)) :
    Except RQLError DjangoLookups :=
  if str_value ∈ null_values then .ok .NULL
  else if is_searching_lookup filter_lookup then
    .ok (get_searching_django_lookup nonce filter_lookup str_value)
  else
    match filter_lookup with
    | .EQ => .ok .EXACT
    | .NE => .ok .EXACT
    | .LT => .ok .LT
    | .LE => .ok .LTE
    | .GT => .ok .GT
    | .GE => .ok .GTE
    | _ => .error .keyError

/-! ### Value coercion (`_convert_value` and the choices helpers) -/

/-- `_get_choice_class_db_value`.  Membership of a db value in a `Choices`
class instance checks the db components.  A failing `int(value)` raises the
`ValueError` that `_get_typed_value` converts into an `RQLFilterValueError`. -/
def get_choice_class_db_value (P : ExternalParsers) (value : List Char)
    (choices : List (ChoiceVal × List Char)) (filter_type : FilterTypes)
    (use_repr : Bool) : Except Unit TypedValue :=
  if use_repr then
    match choices.find? (fun ch => ch.2 = value) with
    | some ch => .ok ch.1.toTyped
    | none => .error ()
  else
    match (if filter_type = FilterTypes.INT then
        (P.parseInt value).map ChoiceVal.int
      else some (ChoiceVal.str value)) with
    | none => .error ()
    | some db_value =>
      if choices.any (fun ch => ch.1 = db_value) then .ok db_value.toTyped
      else .error ()

/-- `_get_choices_field_db_value`. -/
def get_choices_field_db_value (P : ExternalParsers) (value : List Char)
    (choices : FieldChoices) (filter_type : FilterTypes) (use_repr : Bool) :
    Except Unit TypedValue :=
  match choices with
  | .choicesClass cs => get_choice_class_db_value P value cs filter_type use_repr
  | .pairs cs =>
    match cs.find? (fun ch =>
        (if use_repr then ch.2 else ch.1.pyStr) = value) with
    | some ch => .ok ch.1.toTyped
    | none => .error ()
  | .flat cs =>
    match cs.find? (fun ch => ch.pyEq value) with
    | some ch => .ok ch.toTyped
    | none => .error ()

/-- The common tail of `_convert_value` after the type-specific branches:
the empty-string sentinel, then choices dispatch, then the plain
int/string result. -/
def convert_value_tail (P : ExternalParsers) (django_field : DjangoField)
    (val : List Char) (use_repr : Bool) : Except Unit TypedValue :=
  let filter_type := django_field.filterType
  if val = RQL_EMPTY then
    if filter_type = FilterTypes.INT ∨ ¬django_field.blank then .error ()
    else .ok (.str [])
  else
    let plain : Except Unit TypedValue :=
      if filter_type = FilterTypes.INT then
        match P.parseInt val with
        | none => .error ()
        | some i => .ok (.int i)
      else .ok (.str val)
    match django_field.choices with
    | none => plain
    | some choices =>
      if choices.isEmptyChoices then plain
      else get_choices_field_db_value P val choices filter_type use_repr

/-- `_convert_value`.  Note that the `DATE`/`DATETIME` branches only
validate: the parsed value `dt` is discarded and control falls through to
the common tail, so the coerced value for a date filter is the
(quote-stripped) literal string. -/
def convert_value (P : ExternalParsers) (django_field : DjangoField)
    (str_value : List Char) (use_repr : Bool) : Except Unit TypedValue :=
  let val := remove_quotes str_value
  let filter_type := django_field.filterType
  if filter_type = FilterTypes.FLOAT then
    match P.parseFloat val with
    | none => .error ()
    | some f => .ok (.float f)
  else if filter_type = FilterTypes.DECIMAL then
    match P.parseFloat val with
    | none => .error ()
    | some f => .ok (.float (P.pyRound f django_field.decimal_places))
  else if filter_type = FilterTypes.DATE then
    match P.parseDate val with
    | none => .error ()
    | some _ => convert_value_tail P django_field val use_repr
  else if filter_type = FilterTypes.DATETIME then
    match P.parseDatetime val with
    | none => .error ()
    | some _ => convert_value_tail P django_field val use_repr
  else if filter_type = FilterTypes.BOOLEAN then
    if val ≠ RQL_FALSE ∧ val ≠ RQL_TRUE then .error ()
    else .ok (.bool (val = RQL_TRUE))
  else
    convert_value_tail P django_field val use_repr

/-- `_get_typed_value`: a null-sentinel value becomes the boolean is-null
flag `True`; searching lookups go through the wildcard translation; other
values through `_convert_value`; `ValueError`/`TypeError` become
`RQLFilterValueError` with the detail triple. -/
def get_typed_value (P : ExternalParsers) (nonce : List Char)
    (filter_name : String) (filter_lookup : FilterLookups)
    (str_value : List Char) (django_field : DjangoField) (use_repr : Bool)
    (null_values : List (List Char)) (django_lookup : DjangoLookups) :
    Except RQLError TypedValue :=
  if str_value ∈ null_values then .ok (.bool true)
  else if is_searching_lookup filter_lookup then
    match get_searching_typed_value nonce django_lookup str_value with
    | .error _ => .error (.valueError ⟨filter_name, filter_lookup, str_value⟩)
    | .ok v => .ok (.str v)
  else
    match convert_value P django_field str_value use_repr with
    | .error _ => .error (.valueError ⟨filter_name, filter_lookup, str_value⟩)
    | .ok tv => .ok tv

/-! ### The predicate builder (`build_q_for_filter`) -/

/-- `_build_django_q`: one leaf comparison, negated for the `NE` lookup. -/
def build_django_q (orm_route : String) (django_lookup : DjangoLookups)
    (filter_lookup : FilterLookups) (typed_value : TypedValue) : Q :=
  if filter_lookup = FilterLookups.NE then
    .not (.leaf ⟨orm_route, django_lookup, typed_value⟩)
  else
    .leaf ⟨orm_route, django_lookup, typed_value⟩

/-- The fan-out combination of `build_q_for_filter` lines 169-176:
OR across sources, AND for the `NE` lookup. -/
def fan_out_q (ms : List MappedItem) (django_lookup : DjangoLookups)
    (filter_lookup : FilterLookups) (typed_value : TypedValue) : Q :=
  ms.foldl
    (fun q m =>
      let item_q := build_django_q m.orm_route django_lookup filter_lookup
        typed_value
      if filter_lookup = FilterLookups.NE then q.andQ item_q
      else q.orQ item_q)
    Q.empty

/-- The `Q`-result of `build_q_for_filter` for a non-search filter name
(lines 123-176 minus the `_is_distinct` mutation, which is split into
`registered_filter_distinct` below; the source sets the flag before any
potential raise, so the two components are independent). -/
def build_q_for_registered_filter_q (P : ExternalParsers) (st : FilterState)
    (nonce : List Char) (filter_name : String) (operator : String)
    (str_value : List Char) (list_operator : Option String) :
    Except RQLError Q :=
  match List.lookup filter_name st.filters with
  | none => .ok Q.empty
  | some filter_item =>
    match filter_item.base with
    | none => .ok Q.empty
    | some base_item =>
      let listCheck : Option RQLError :=
        match list_operator with
        | none => none
        | some lop =>
          let list_filter_lookup :=
            if lop = "in" then FilterLookups.IN else FilterLookups.OUT
          if list_filter_lookup ∉ base_item.lookups then
            some (.lookupError ⟨filter_name, list_filter_lookup, str_value⟩)
          else none
      match listCheck with
      | some e => .error e
      | none =>
        match get_filter_lookup filter_name operator str_value
            base_item.lookups base_item.null_values with
        | .error e => .error e
        | .ok filter_lookup =>
          match get_django_lookup nonce filter_lookup str_value
              base_item.null_values with
          | .error e => .error e
          | .ok django_lookup =>
            match filter_item with
            | .custom _ =>
              st.customBuilder filter_name operator str_value list_operator
                filter_lookup django_lookup
            | .single m =>
              match get_typed_value P nonce filter_name filter_lookup
                  str_value m.field (m.use_repr.getD false)
                  base_item.null_values django_lookup with
              | .error e => .error e
              | .ok typed_value =>
                .ok (build_django_q m.orm_route django_lookup filter_lookup
                  typed_value)
            | .many ms =>
              match ms with
              | [] => .ok Q.empty
              | m0 :: _ =>
                match get_typed_value P nonce filter_name filter_lookup
                    str_value m0.field (m0.use_repr.getD false)
                    base_item.null_values django_lookup with
                | .error e => .error e
                | .ok typed_value =>
                  .ok (fan_out_q ms django_lookup filter_lookup typed_value)

/-- The `_is_distinct` update of `build_q_for_filter` line 127-128. -/
def registered_filter_distinct (st : FilterState) (filter_name : String)
    (is_distinct : Bool) : Bool :=
  match get_filter_base_item st filter_name with
  | none => is_distinct
  | some base_item => is_distinct || base_item.distinct

/-- `build_q_for_filter` restricted to registered (non-search) names,
returning the result together with the updated `_is_distinct` flag. -/
def build_q_for_registered_filter (P : ExternalParsers) (st : FilterState)
    (nonce : List Char) (filter_name : String) (operator : String)
    (str_value : List Char) (list_operator : Option String)
    (is_distinct : Bool) : Except RQLError Q × Bool :=
  (build_q_for_registered_filter_q P st nonce filter_name operator str_value
      list_operator,
    registered_filter_distinct st filter_name is_distinct)

/-! ### The search resolver -/

/-- The loop body of `_build_q_for_extended_search`: each extended ORM
route contributes one `I_LIKE` leaf; a `ValueError` out of
`_get_searching_typed_value` propagates uncaught here. -/
def extended_search_fold (nonce : List Char) (str_value : List Char) :
    List String → Q → Except RQLError Q
  | [], q => .ok q
  | route :: rest, q =>
    let django_lookup :=
      get_searching_django_lookup nonce FilterLookups.I_LIKE str_value
    match get_searching_typed_value nonce django_lookup str_value with
    | .error _ => .error .pyValueError
    | .ok typed_value =>
      extended_search_fold nonce str_value rest
        (q.orQ (build_django_q route django_lookup FilterLookups.I_LIKE
          (.str typed_value)))

/-- `_build_q_for_extended_search`. -/
def build_q_for_extended_search (st : FilterState) (nonce : List Char)
    (str_value : List Char) : Except RQLError Q :=
  extended_search_fold nonce str_value st.extended_search_orm_routes Q.empty

/-- The loop of `_build_q_for_search` over the search-eligible filters.
The source calls `build_q_for_filter` here; a registered filter name can
never equal the reserved search name (`_add_filter_item` asserts against
`RESERVED_FILTER_NAMES`), so the call always takes the registered branch,
which is invoked directly to keep the recursion structural. -/
def search_filters_fold (P : ExternalParsers) (st : FilterState)
    (nonce : List Char) (str_value : List Char) :
    List String → Q → Bool → Except RQLError Q × Bool
  | [], q, is_distinct => (.ok q, is_distinct)
  | filter_name :: rest, q, is_distinct =>
    match build_q_for_registered_filter P st nonce filter_name "ilike"
        str_value none is_distinct with
    | (.error e, d) => (.error e, d)
    | (.ok qn, d) => search_filters_fold P st nonce str_value rest (q.orQ qn) d

/-- The wildcard normalization of `_build_q_for_search` lines 259-264:
quote-strip, then prefix/append the wildcard symbol where missing. -/
def search_normalized_value (str_value : List Char) : List Char :=
  let unquoted_value := remove_quotes str_value
  let unquoted_value :=
    if ¬unquoted_value.head? = some RQL_ANY_SYMBOL then '*' :: unquoted_value
    else unquoted_value
  if ¬unquoted_value.getLast? = some RQL_ANY_SYMBOL then
    unquoted_value ++ [RQL_ANY_SYMBOL]
  else unquoted_value

/-- `_build_q_for_search`. -/
def build_q_for_search (P : ExternalParsers) (st : FilterState)
    (nonce : List Char) (operator : String) (str_value : List Char)
    (is_distinct : Bool) : Except RQLError Q × Bool :=
  if operator ≠ "eq" then
    (.error (.parsingError ("Bad search filter: " ++ operator ++ ".")),
      is_distinct)
  else
    let unquoted_value := search_normalized_value str_value
    match build_q_for_extended_search st nonce unquoted_value with
    | .error e => (.error e, is_distinct)
    | .ok q =>
      search_filters_fold P st nonce unquoted_value st.search_filters q
        is_distinct

/-- `build_q_for_filter`: the reserved search name dispatches to the
search resolver; everything else to the registered-filter builder. -/
def build_q_for_filter (P : ExternalParsers) (st : FilterState)
    (nonce : List Char) (filter_name : String) (operator : String)
    (str_value : List Char) (list_operator : Option String)
    (is_distinct : Bool) : Except RQLError Q × Bool :=
  if filter_name = RQL_SEARCH_PARAM then
    build_q_for_search P st nonce operator str_value is_distinct
  else
    build_q_for_registered_filter P st nonce filter_name operator str_value
      list_operator is_distinct

/-! ### The backing-store result set -/

/-- The slice of a Django queryset this core manipulates: the accumulated
filter predicates, whether `.distinct()` has been applied, and the ordering
fields. -/
structure QuerySet where
  applied_filters : List Q
  distinct_applied : Bool
  order_fields : List String
  deriving DecidableEq, Repr

def QuerySet.filter (qs : QuerySet) (q : Q) : QuerySet :=
  { qs with applied_filters := qs.applied_filters ++ [q] }

def QuerySet.distinct (qs : QuerySet) : QuerySet :=
  { qs with distinct_applied := true }

def QuerySet.order_by (qs : QuerySet) (fields : List String) : QuerySet :=
  { qs with order_fields := fields }

/-! ### The AST transformer (`dj_rql/transformer.py`) -/

namespace RQLToDjangoORMTransformer

/-- `start` (transformer.py lines 21-22): the root of the walk filters the
queryset with the combined predicate and unconditionally applies
`.distinct()`. -/
def start (filter_cls_queryset : QuerySet) (q : Q) : QuerySet :=
  (filter_cls_queryset.filter q).distinct

/-- `logical` (transformer.py lines 45-56). -/
def logical_and (children : List Q) : Q :=
  children.foldl Q.andQ Q.empty

def logical_or (children : List Q) : Q :=
  children.foldl Q.orQ Q.empty

def logical_not (child : Q) : Q :=
  .not child

end RQLToDjangoORMTransformer

/-- The conditional deduplication step of `apply_filters`
(filter_cls.py lines 98-99). -/
def apply_filters_distinct_step (is_distinct : Bool) (qs : QuerySet) :
    QuerySet :=
  if is_distinct then qs.distinct else qs

/-! ### The ordering resolver (`_apply_ordering`) -/

/-- One `f` of the inner loop of `_apply_ordering`: update `_is_distinct`,
resolve the sortable name (via the custom hook for custom filters), and
prepend the sign. -/
def ordering_entry_fields (st : FilterState) (filter_name : String)
    (sign : String) (fi : FilterItem) (is_distinct : Bool) :
    Except RQLError (List String × Bool)  :=
  match fi with
  | .single m => .ok ([sign ++ m.orm_route], is_distinct || m.distinct)
  | .many ms =>
    .ok (ms.map (fun m => sign ++ m.orm_route),
      ms.foldl (fun d m => d || m.distinct) is_distinct)
  | .custom c =>
    let is_distinct := is_distinct || c.distinct
    match st.customOrderingName filter_name with
    | .error e => .error e
    | .ok ordering_name => .ok ([sign ++ ordering_name], is_distinct)

/-- `'-' == prop[0]` for an ordering token; Python raises `IndexError` on
an empty token, which the grammar never produces. -/
def ordering_token_sign (prop : String) : String :=
  match prop.data with
  | '-' :: _ => "-"
  | _ => ""

/-- `prop[1:]` when the token carries the descending marker. -/
def ordering_token_name (prop : String) : String :=
  match prop.data with
  | '-' :: rest => ⟨rest⟩
  | _ => prop

/-- The token loop of `_apply_ordering` over the single ordering group.
A token naming a filter outside the ordering-eligible registry raises;
`self.filters[filter_name]` missing would be a Python `KeyError`. -/
def ordering_group_fields (st : FilterState) :
    List String → Bool → Except RQLError (List String × Bool)
  | [], is_distinct => .ok ([], is_distinct)
  | prop :: rest, is_distinct =>
    let sign := ordering_token_sign prop
    let filter_name := ordering_token_name prop
    if filter_name ∉ st.ordering_filters then
      .error (.parsingError ("Bad ordering filter: " ++ filter_name ++ "."))
    else
      match List.lookup filter_name st.filters with
      | none => .error .keyError
      | some fi =>
        match ordering_entry_fields st filter_name sign fi is_distinct with
        | .error e => .error e
        | .ok (fields, is_distinct) =>
          match ordering_group_fields st rest is_distinct with
          | .error e => .error e
          | .ok (rest_fields, is_distinct) =>
            .ok (fields ++ rest_fields, is_distinct)

/-- `_apply_ordering`: zero groups pass through, more than one group is a
parsing error, the single group expands to the ordered field list. -/
def apply_ordering (st : FilterState) (qs : QuerySet)
    (properties : List (List String)) (is_distinct : Bool) :
    Except RQLError (QuerySet × Bool) :=
  match properties with
  | [] => .ok (qs, is_distinct)
  | [group] =>
    match ordering_group_fields st group is_distinct with
    | .error e => .error e
    | .ok (ordering_fields, is_distinct) =>
      .ok (qs.order_by ordering_fields, is_distinct)
  | _ :: _ :: _ =>
    .error (.parsingError
      "Bad ordering filter: query can contain only one ordering operation.")

/-! ### Schema-compiler pieces used by the claims -/

/-- Modelled from the spec: `FilterTypes.default_field_filter_lookups`
lives in `dj_rql/constants.py`, which is not among the sources.  The spec
only fixes that each declared type has a set of valid lookups (§3) and that
`like`/`ilike` belong to search-capable (string) filters (§4.2 step 4); the
comparison, list and null lookups are available everywhere.  No theorem
below depends on the exact sets. -/
def default_field_filter_lookups (field : DjangoField) : List FilterLookups :=
  if field.filterType = FilterTypes.STRING then
    [.EQ, .NE, .LIKE, .I_LIKE, .NULL, .IN, .OUT]
  else
    [.EQ, .NE, .LT, .LE, .GT, .GE, .NULL, .IN, .OUT]

/-- `_build_mapped_item`: defaulted lookups with the `NULL` lookup
discarded for non-nullable non-pk fields, defaulted null sentinel set
(Python `null_values or {RQL_NULL}` also replaces an empty set), and the
`use_repr` key present only when explicitly configured. -/
def build_mapped_item (field : DjangoField) (field_orm_route : String)
    (lookups : Option (List FilterLookups)) (use_repr : Option Bool)
    (null_values : Option (List (List Char))) (distinct : Option Bool) :
    MappedItem :=
  let possible_lookups :=
    match lookups with
    | none => default_field_filter_lookups field
    | some l => if l.isEmpty then default_field_filter_lookups field else l
  let possible_lookups :=
    if ¬(field.null ∨ field.is_pk) then
      possible_lookups.filter (fun lk => lk ≠ FilterLookups.NULL)
    else possible_lookups
  { field := field
    orm_route := field_orm_route
    lookups := possible_lookups
    null_values :=
      match null_values with
      | none => [RQL_NULL]
      | some nv => if nv.isEmpty then [RQL_NULL] else nv
    distinct := distinct.getD false
    use_repr := use_repr }

/-- The `'sources' in item` loop of `_build_filters` (lines 421-427):
`field = field or self._get_field(model, source)` resolves the backing
field for the first source only and reuses it for every later source
unless an explicit `field` override was declared. -/
def build_filters_sources_items (get_field : String → DjangoField)
    (orm_route : String) (lookups : Option (List FilterLookups))
    (use_repr : Option Bool) (null_values : Option (List (List Char)))
    (distinct : Option Bool) :
    Option DjangoField → List String → List MappedItem
  | _, [] => []
  | field, source :: rest =>
    let f :=
      match field with
      | some f => f
      | none => get_field source
    build_mapped_item f (orm_route ++ source) lookups use_repr null_values
        distinct ::
      build_filters_sources_items get_field orm_route lookups use_repr
        null_values distinct (some f) rest

/-! ### The selection resolver (`_build_rql_select`) -/

/-- The select-tree nodes as read by `_build_rql_select`: only the
`'fields'` child mapping is consulted (insertion-ordered). -/
inductive SelectTree where
  | node (fields : List (String × SelectTree))

def SelectTree.fields : SelectTree → List (String × SelectTree)
  | node fs => fs

/-- Insertion-ordered dict update (Python `d[k] = v`). -/
def dict_set : List (String × Bool) → String → Bool → List (String × Bool)
  | [], k, v => [(k, v)]
  | p :: ps, k, v =>
    if p.1 = k then (p.1, v) :: ps else p :: dict_set ps k v

def dict_get (d : List (String × Bool)) (k : String) : Option Bool :=
  List.lookup k d

/-- Python `set.add` (kept as an ordered list; only membership matters). -/
def set_add (s : List String) (x : String) : List String :=
  if x ∈ s then s else s ++ [x]

/-- The mutable locals of `_build_rql_select`. -/
structure SelState where
  rql_select : List (String × Bool)
  exclusions : List String
  inclusions : List String
  forbidden_inclusions : List String
  potential_exclusions : List String

/-- The per-part walk of an inclusion token (`is_included` branch,
lines 202-226).  The three bare `raise` statements surface as
`runtimeError`. -/
def rql_select_include (tree : SelectTree) (parent_parts : String) :
    List String → SelState → Except RQLError SelState
  | [], st => .ok st
  | part :: rest, st =>
    match List.lookup part tree.fields with
    | none => .error .runtimeError
    | some sub =>
      if part ∈ st.exclusions then .error .runtimeError
      else if (parent_parts ++ ".") ∈ st.forbidden_inclusions then
        .error .runtimeError
      else
        let current_part := parent_parts ++ part
        let st :=
          { st with
            inclusions := set_add st.inclusions current_part
            rql_select := dict_set st.rql_select current_part true }
        match rest with
        | [] =>
          .ok { st with
            potential_exclusions :=
              tree.fields.foldl
                (fun acc p =>
                  if p.1 ≠ part then set_add acc (parent_parts ++ p.1)
                  else acc)
                st.potential_exclusions }
        | _ :: _ =>
          rql_select_include sub (current_part ++ ".") rest st

/-- The per-part walk of an exclusion token (lines 236-246): validate each
segment and record the excluded subtree in `forbidden_inclusions`. -/
def rql_select_exclude_walk (tree : SelectTree) (parent_parts : String) :
    List String → SelState → Except RQLError SelState
  | [], st => .ok st
  | part :: rest, st =>
    match List.lookup part tree.fields with
    | none => .error .runtimeError
    | some sub =>
      let current_part := parent_parts ++ part
      let parent_parts := current_part ++ "."
      match rest with
      | [] =>
        .ok { st with
          forbidden_inclusions :=
            set_add st.forbidden_inclusions parent_parts }
      | _ :: _ => rql_select_exclude_walk sub parent_parts rest st

/-- `is_included = (not select_prop[0] == '-')`; Python raises `IndexError`
on an empty token, which the grammar never produces. -/
def select_token_is_included (select_prop : String) : Bool :=
  match select_prop.data with
  | [] => true
  | c :: _ => c ≠ '-'

/-- `select_prop[1:] if select_prop[0] in ('-', '+') else select_prop`. -/
def select_token_name (select_prop : String) : String :=
  match select_prop.data with
  | [] => select_prop
  | c :: rest =>
    if c = '-' ∨ c = '+' then ⟨rest⟩ else select_prop

/-- Processing of one selection token (the body of the `for select_prop in
select` loop). -/
def rql_select_token (tree : SelectTree) (st : SelState)
    (select_prop : String) : Except RQLError SelState :=
  let is_included := select_token_is_included select_prop
  let filter_name := select_token_name select_prop
  if is_included then
    rql_select_include tree "" (splitDots filter_name) st
  else if filter_name ∈ st.inclusions then .error .runtimeError
  else
    let st :=
      { st with
        exclusions := set_add st.exclusions filter_name
        rql_select := dict_set st.rql_select filter_name false }
    rql_select_exclude_walk tree "" (splitDots filter_name) st

def rql_select_tokens (tree : SelectTree) :
    List String → SelState → Except RQLError SelState
  | [], st => .ok st
  | t :: ts, st =>
    match rql_select_token tree st t with
    | .error e => .error e
    | .ok st => rql_select_tokens tree ts st

/-- `_build_rql_select`: process the tokens, then mark every path of
`potential_exclusions ∪ default_exclusions - inclusions` as excluded
(Python iterates a set here; the output is compared through `dict_get`,
which is insensitive to that order). -/
def build_rql_select (default_exclusions : List String) (tree : SelectTree)
    (select : List String) : Except RQLError (List (String × Bool)) :=
  match rql_select_tokens tree select ⟨[], [], [], [], []⟩ with
  | .error e => .error e
  | .ok st =>
    .ok
      (((st.potential_exclusions ++ default_exclusions).filter
          (fun e => e ∉ st.inclusions)).foldl
        (fun d e => dict_set d e false) st.rql_select)

/-! ### Spec-side definitions for the refinement-style claims -/

/-- The lookup-kind selection exactly as the (amended) specification words
it: the bare wildcard value is a regex, zero wildcards exact-match, a
single boundary wildcard ends-with/starts-with, wildcards at both ends
only a contains, anything else a regex. -/
def spec_pattern_kind (val : List Char) : SearchPattern :=
  if val = [RQL_ANY_SYMBOL] then .REGEX
  else if val.count RQL_ANY_SYMBOL = 0 then .EXACT
  else if val.count RQL_ANY_SYMBOL = 1 ∧ val.head? = some RQL_ANY_SYMBOL then
    .ENDSWITH
  else if val.count RQL_ANY_SYMBOL = 1 ∧ val.getLast? = some RQL_ANY_SYMBOL then
    .STARTSWITH
  else if val.count RQL_ANY_SYMBOL = 2 ∧ val.head? = some RQL_ANY_SYMBOL ∧
      val.getLast? = some RQL_ANY_SYMBOL then
    .CONTAINS
  else .REGEX

/-- The regex pattern as the amended specification words it: drop a
boundary wildcard where present (anchoring with `^`/`$` at a boundary that
has no wildcard), and join the remaining literal chunks with the
non-greedy any-characters sub-pattern. -/
def amended_regex_value (val : List Char) : List Char :=
  let trimmed := if val.head? = some RQL_ANY_SYMBOL then val.drop 1 else val
  let trimmed :=
    if val.getLast? = some RQL_ANY_SYMBOL then trimmed.dropLast else trimmed
  (if val.head? = some RQL_ANY_SYMBOL then [] else ['^']) ++
    pyJoin any_symbol_regex (splitOnChar RQL_ANY_SYMBOL trimmed) ++
    (if val.getLast? = some RQL_ANY_SYMBOL then [] else ['$'])

/-! ### Concrete fixtures used by witnesses and counterexamples -/

/-- A concrete stand-in for the `uuid4().hex` nonce. -/
def nonce0 : List Char := "9c2f".data

/-- Concrete external parsers for evaluating the embedding on closed
inputs. -/
def test_parsers : ExternalParsers where
  parseFloat := fun v => if v = "1.5".data then some ((3 : ℚ) / 2) else none
  pyRound := fun q _ => q
  parseInt := fun v => if v = "7".data then some 7 else none
  parseDate := fun v => if v = "2020-01-01".data then some 737790 else none
  parseDatetime := fun v =>
    if v = "2020-01-01T00:00:00".data then some 63713952000 else none

/-- A plain blank-capable, non-nullable string field. -/
def str_field : DjangoField :=
  { filterType := .STRING, decimal_places := 0, blank := true, null := false
    is_pk := false, choices := none }

/-- A nullable string field. -/
def str_field_nullable : DjangoField :=
  { filterType := .STRING, decimal_places := 0, blank := true, null := true
    is_pk := false, choices := none }

/-- A non-nullable date field without choices. -/
def date_field : DjangoField :=
  { filterType := .DATE, decimal_places := 0, blank := false, null := false
    is_pk := false, choices := none }

/-- A non-nullable integer field without choices. -/
def int_field : DjangoField :=
  { filterType := .INT, decimal_places := 0, blank := false, null := false
    is_pk := false, choices := none }

/-- A `FilterState` with the base (raising) custom hooks and `DISTINCT`
off. -/
def mk_state (filters : List (String × FilterItem))
    (search_filters ordering_filters extended : List String) : FilterState :=
  { filters := filters
    search_filters := search_filters
    ordering_filters := ordering_filters
    extended_search_orm_routes := extended
    distinct_default := false
    customBuilder := build_q_for_custom_filter_base
    customOrderingName := build_name_for_custom_ordering_base }

/-- The registry entry schema compilation produces for a non-nullable
string attribute with default options: the `NULL` lookup is discarded and
the default null sentinel set is kept, which makes `f=null()` a lookup
error (the C2 counterexample). -/
def m_c2 : MappedItem := build_mapped_item str_field "f" none none none none

def st_c2 : FilterState := mk_state [("f", .single m_c2)] [] [] []

/-- The same filter over a nullable attribute, where the `NULL` lookup
survives. -/
def m_c2w : MappedItem :=
  build_mapped_item str_field_nullable "f" none none none none

def st_c2w : FilterState := mk_state [("f", .single m_c2w)] [] [] []

/-- A two-source fan-out filter over string attributes. -/
def m_src_a : MappedItem := build_mapped_item str_field "a" none none none none

def m_src_b : MappedItem := build_mapped_item str_field "b" none none none none

def st_c3 : FilterState := mk_state [("f", .many [m_src_a, m_src_b])] [] [] []

/-- A state with one search-eligible string filter and one extended search
route. -/
def st_c5 : FilterState :=
  mk_state [("name", .single (build_mapped_item str_field "name"
    none none none none))] ["name"] [] ["ext__route"]

/-- A state with one ordering-eligible two-source filter. -/
def st_c8 : FilterState :=
  mk_state [("a", .many [m_src_a, m_src_b])] [] ["a"] []

/-- An empty concrete queryset. -/
def qs0 : QuerySet := ⟨[], false, []⟩

/-- Selection trees for the C7 counterexample and the sibling-inclusion
example. -/
def sel_tree_ab : SelectTree := .node [("a", .node [("b", .node [])])]

def sel_tree_abcd : SelectTree :=
  .node [("a", .node [("b", .node []), ("c", .node []), ("d", .node [])])]

/-- A source-field resolver mapping distinct sources to distinct fields,
for the C10 theorems. -/
def get_field0 : String → DjangoField :=
  fun source => if source = "s1" then str_field else str_field_nullable

def items_c10 : List MappedItem :=
  build_filters_sources_items get_field0 "" none none none none none
    ["s1", "s2"]

def st_c10 : FilterState := mk_state [("f", .many items_c10)] [] [] []

/-- `st_c10` with the second (non-base) descriptor's field, lookups and
null sentinels replaced arbitrarily but the route kept: query behaviour
must not change. -/
def items_c10_alt : List MappedItem :=
  match items_c10 with
  | m0 :: m1 :: rest =>
    m0 :: { m1 with
      field := int_field
      lookups := [FilterLookups.EQ]
      null_values := ["nil()".data]
      distinct := true } :: rest
  | l => l

def st_c10_alt : FilterState := mk_state [("f", .many items_c10_alt)] [] [] []

/-! ## Lemmas about the Python string primitives -/

theorem replaceFuel_fuel (pat rep : List Char) :
    ∀ (n m : Nat) (s : List Char), s.length ≤ n → s.length ≤ m →
      replaceFuel pat rep n s = replaceFuel pat rep m s := by
  intro n
  induction n with
  | zero =>
    intro m s hs _
    have : s = [] := List.eq_nil_of_length_eq_zero (Nat.le_zero.mp hs)
    subst this
    cases m <;> simp [replaceFuel]
  | succ n ih =>
    intro m s hs hm
    cases s with
    | nil => cases m <;> simp [replaceFuel]
    | cons c cs =>
      cases m with
      | zero => simp at hm
      | succ m =>
        simp only [replaceFuel]
        by_cases h : pat ≠ [] ∧ pat.isPrefixOf (c :: cs)
        · simp only [if_pos h]
          congr 1
          apply ih
          · calc (List.drop (pat.length - 1) cs).length ≤ cs.length :=
                  by simp [List.length_drop]
              _ ≤ n := by simpa using hs
          · calc (List.drop (pat.length - 1) cs).length ≤ cs.length :=
                  by simp [List.length_drop]
              _ ≤ m := by simpa using hm
        · simp only [if_neg h]
          congr 1
          exact ih m cs (by simpa using hs) (by simpa using hm)

theorem pyReplace_nil (pat rep : List Char) : pyReplace pat rep [] = [] := rfl

theorem pyReplace_cons (pat rep : List Char) (c : Char) (cs : List Char) :
    pyReplace pat rep (c :: cs) =
      if pat ≠ [] ∧ pat.isPrefixOf (c :: cs) then
        rep ++ pyReplace pat rep (List.drop (pat.length - 1) cs)
      else c :: pyReplace pat rep cs := by
  show replaceFuel pat rep (cs.length + 1) (c :: cs) = _
  simp only [replaceFuel]
  by_cases h : pat ≠ [] ∧ pat.isPrefixOf (c :: cs)
  · simp only [if_pos h]
    congr 1
    exact replaceFuel_fuel pat rep _ _ _ (by simp [List.length_drop])
      (le_refl _)
  · simp only [if_neg h]
    rfl

theorem pyReplace_of_head_not_mem (p : Char) (ps rep s : List Char)
    (h : p ∉ s) : pyReplace (p :: ps) rep s = s := by
  induction s with
  | nil => rfl
  | cons c cs ih =>
    rw [pyReplace_cons]
    have hpc : ¬(p :: ps).isPrefixOf (c :: cs) = true := by
      simp only [List.isPrefixOf, Bool.and_eq_true, beq_iff_eq]
      rintro ⟨rfl, -⟩
      exact h (List.mem_cons_self _ _)
    rw [if_neg (by simp [hpc]), ih (fun hm => h (List.mem_cons_of_mem _ hm))]

theorem pyReplace_of_not_contains (pat rep s : List Char)
    (h : pyContains pat s = false) :
    pyReplace pat rep s = s := by
  induction s with
  | nil => rfl
  | cons c cs ih =>
    simp only [pyContains, Bool.or_eq_false_iff] at h
    rw [pyReplace_cons, if_neg (by simp [h.1]), ih h.2]

theorem splitOnChar_ne_nil (a : Char) (s : List Char) :
    splitOnChar a s ≠ [] := by
  cases s with
  | nil => simp [splitOnChar]
  | cons c cs =>
    simp only [splitOnChar]
    split
    · simp
    · cases h : splitOnChar a cs <;> simp

theorem pyReplace_single_eq_join_split (a : Char) (rep s : List Char) :
    pyReplace [a] rep s = pyJoin rep (splitOnChar a s) := by
  induction s with
  | nil => rfl
  | cons c cs ih =>
    rw [pyReplace_cons]
    by_cases hca : c = a
    · subst hca
      have hpre : [c].isPrefixOf (c :: cs) = true := by
        simp [List.isPrefixOf]
      rw [if_pos (by simp [hpre])]
      simp only [List.length_cons, List.length_nil, Nat.add_sub_cancel,
        List.drop_zero]
      obtain ⟨h, t, hht⟩ : ∃ h t, splitOnChar c cs = h :: t := by
        cases hsp : splitOnChar c cs with
        | nil => exact absurd hsp (splitOnChar_ne_nil c cs)
        | cons h t => exact ⟨h, t, rfl⟩
      simp only [splitOnChar, if_pos rfl, hht, pyJoin]
      rw [ih, hht]
      simp [pyJoin]
    · have hac : ¬a = c := fun hh => hca hh.symm
      have hpre : ¬[a].isPrefixOf (c :: cs) = true := by
        simp [List.isPrefixOf, hac]
      rw [if_neg (by simp [hpre])]
      obtain ⟨h, t, hht⟩ : ∃ h t, splitOnChar a cs = h :: t := by
        cases hsp : splitOnChar a cs with
        | nil => exact absurd hsp (splitOnChar_ne_nil a cs)
        | cons h t => exact ⟨h, t, rfl⟩
      simp only [splitOnChar, if_neg hca, hht]
      cases t with
      | nil => simp only [pyJoin]; rw [ih, hht]; rfl
      | cons t0 ts =>
        simp only [pyJoin]
        rw [ih, hht]
        simp [pyJoin]

theorem pyReplace_single_empty_eq_filter (a : Char) (s : List Char) :
    pyReplace [a] [] s = s.filter (fun c => c ≠ a) := by
  induction s with
  | nil => rfl
  | cons c cs ih =>
    rw [pyReplace_cons]
    by_cases hca : c = a
    · subst hca
      rw [if_pos (by simp [List.isPrefixOf])]
      simpa using ih
    · have hac : ¬a = c := fun hh => hca hh.symm
      rw [if_neg (by simp [List.isPrefixOf, hac])]
      simp [List.filter_cons, hca, ih]

theorem pyReplace_single_cons_ne (a : Char) (rep : List Char) (c : Char)
    (v : List Char) (h : c ≠ a) :
    pyReplace [a] rep (c :: v) = c :: pyReplace [a] rep v := by
  have hac : ¬a = c := fun hh => h hh.symm
  rw [pyReplace_cons, if_neg (by simp [List.isPrefixOf, hac])]

theorem pyReplace_single_append_ne (a : Char) (rep : List Char)
    (v : List Char) (b : Char) (h : b ≠ a) :
    pyReplace [a] rep (v ++ [b]) = pyReplace [a] rep v ++ [b] := by
  induction v with
  | nil => simp [pyReplace_nil, pyReplace_single_cons_ne a rep b [] h]
  | cons c cs ih =>
    by_cases hca : c = a
    · subst hca
      have hpre : [c].isPrefixOf (c :: (cs ++ [b])) = true := by
        simp [List.isPrefixOf]
      rw [List.cons_append, pyReplace_cons, if_pos (by simp [hpre]),
        pyReplace_cons, if_pos (by simp [List.isPrefixOf])]
      simp only [List.length_cons, List.length_nil, Nat.add_sub_cancel,
        List.drop_zero]
      rw [ih]
      simp
    · rw [List.cons_append, pyReplace_single_cons_ne a rep c _ hca,
        pyReplace_single_cons_ne a rep c _ hca, ih]
      simp

theorem splitFuel_fuel (sep : List Char) :
    ∀ (n m : Nat) (s : List Char), s.length ≤ n → s.length ≤ m →
      splitFuel sep n s = splitFuel sep m s := by
  intro n
  induction n with
  | zero =>
    intro m s hs _
    have : s = [] := List.eq_nil_of_length_eq_zero (Nat.le_zero.mp hs)
    subst this
    cases m <;> simp [splitFuel]
  | succ n ih =>
    intro m s hs hm
    cases s with
    | nil => cases m <;> simp [splitFuel]
    | cons c cs =>
      cases m with
      | zero => simp at hm
      | succ m =>
        simp only [splitFuel]
        by_cases h : sep ≠ [] ∧ sep.isPrefixOf (c :: cs)
        · simp only [if_pos h]
          congr 1
          apply ih
          · calc (List.drop (sep.length - 1) cs).length ≤ cs.length :=
                  by simp [List.length_drop]
              _ ≤ n := by simpa using hs
          · calc (List.drop (sep.length - 1) cs).length ≤ cs.length :=
                  by simp [List.length_drop]
              _ ≤ m := by simpa using hm
        · simp only [if_neg h]
          rw [ih m cs (by simpa using hs) (by simpa using hm)]

theorem pySplit_cons (sep : List Char) (c : Char) (cs : List Char) :
    pySplit sep (c :: cs) =
      if sep ≠ [] ∧ sep.isPrefixOf (c :: cs) then
        [] :: pySplit sep (List.drop (sep.length - 1) cs)
      else
        match pySplit sep cs with
        | [] => [[c]]
        | h :: t => (c :: h) :: t := by
  show splitFuel sep (cs.length + 1) (c :: cs) = _
  simp only [splitFuel]
  by_cases h : sep ≠ [] ∧ sep.isPrefixOf (c :: cs)
  · simp only [if_pos h]
    congr 1
    exact splitFuel_fuel sep _ _ _ (by simp [List.length_drop]) (le_refl _)
  · simp only [if_neg h]
    rfl

theorem pySplit_of_head_not_mem (d : Char) (ds s : List Char)
    (h : d ∉ s) : pySplit (d :: ds) s = [s] := by
  induction s with
  | nil => rfl
  | cons c cs ih =>
    rw [pySplit_cons]
    have hpc : ¬(d :: ds).isPrefixOf (c :: cs) = true := by
      simp only [List.isPrefixOf, Bool.and_eq_true, beq_iff_eq]
      rintro ⟨rfl, -⟩
      exact h (List.mem_cons_self _ _)
    rw [if_neg (by simp [hpc]), ih (fun hm => h (List.mem_cons_of_mem _ hm))]

/-- Quote-stripping a backslash-free value leaves it backslash-free, so
`_reflect_like_value` is the identity on it. -/
theorem reflect_like_value_of_no_backslash (nonce s : List Char)
    (h : '\\' ∉ remove_quotes s) :
    reflect_like_value nonce s = remove_quotes s := by
  unfold reflect_like_value
  rw [pySplit_of_head_not_mem _ _ _ h]
  simp only [List.map_cons, List.map_nil]
  rw [pyReplace_of_head_not_mem _ _ _ _ h]
  rfl

/-! ## Lemmas about `Q` combination and evaluation -/

theorem orQ_of_ne_empty (a b : Q) (ha : a ≠ Q.empty) (hb : b ≠ Q.empty) :
    Q.orQ a b = Q.or a b := by
  cases a <;> cases b <;> simp_all [Q.orQ]

theorem orQ_empty_left (b : Q) : Q.orQ Q.empty b = b := by
  cases b <;> rfl

theorem eval_andQ (ρ : QLeaf → Bool) (a b : Q) :
    (Q.andQ a b).eval ρ = (a.eval ρ && b.eval ρ) := by
  cases a <;> cases b <;> simp [Q.andQ, Q.eval]

theorem orQ_ne_empty (a b : Q) (hb : b ≠ Q.empty) : Q.orQ a b ≠ Q.empty := by
  cases a <;> cases b <;> simp_all [Q.orQ]

theorem eval_foldl_orQ {α : Type} (ρ : QLeaf → Bool) (f : α → Q) :
    ∀ (l : List α) (q : Q), q ≠ Q.empty → (∀ x ∈ l, f x ≠ Q.empty) →
      (l.foldl (fun acc x => acc.orQ (f x)) q).eval ρ =
        (q.eval ρ || l.any (fun x => (f x).eval ρ)) := by
  intro l
  induction l with
  | nil => intro q _ _; simp
  | cons x xs ih =>
    intro q hq hl
    have hfx : f x ≠ Q.empty := hl x (List.mem_cons_self _ _)
    simp only [List.foldl_cons]
    rw [ih (q.orQ (f x)) (orQ_ne_empty _ _ hfx)
        (fun y hy => hl y (List.mem_cons_of_mem _ hy)),
      orQ_of_ne_empty _ _ hq hfx]
    simp [Q.eval, Bool.or_assoc]

theorem eval_foldl_orQ_empty {α : Type} (ρ : QLeaf → Bool) (f : α → Q)
    (l : List α) (hl : ∀ x ∈ l, f x ≠ Q.empty) :
    (l.foldl (fun acc x => acc.orQ (f x)) Q.empty).eval ρ =
      (if l.isEmpty then true else l.any (fun x => (f x).eval ρ)) := by
  cases l with
  | nil => simp [Q.eval]
  | cons x xs =>
    simp only [List.foldl_cons, List.isEmpty_cons, if_neg]
    rw [orQ_empty_left]
    rw [eval_foldl_orQ ρ f xs (f x) (hl x (List.mem_cons_self _ _))
      (fun y hy => hl y (List.mem_cons_of_mem _ hy))]
    simp

theorem eval_foldl_andQ {α : Type} (ρ : QLeaf → Bool) (f : α → Q) :
    ∀ (l : List α) (q : Q),
      (l.foldl (fun acc x => acc.andQ (f x)) q).eval ρ =
        (q.eval ρ && l.all (fun x => (f x).eval ρ)) := by
  intro l
  induction l with
  | nil => intro q; simp
  | cons x xs ih =>
    intro q
    simp only [List.foldl_cons]
    rw [ih (q.andQ (f x)), eval_andQ]
    simp [Bool.and_assoc]

/-! ## Lemmas about the dict/set primitives of the selection resolver -/

theorem dict_get_set_self (d : List (String × Bool)) (k : String) (v : Bool) :
    dict_get (dict_set d k v) k = some v := by
  induction d with
  | nil => simp [dict_set, dict_get, List.lookup]
  | cons p ps ih =>
    by_cases h : p.1 = k
    · simp [dict_set, h, dict_get, List.lookup]
    · have : ¬(k == p.1) = true := by
        simp only [beq_iff_eq]
        exact fun hh => h hh.symm
      simp only [dict_set, if_neg h, dict_get, List.lookup, this]
      exact ih

theorem dict_get_set_ne (d : List (String × Bool)) (k k' : String) (v : Bool)
    (h : k' ≠ k) : dict_get (dict_set d k v) k' = dict_get d k' := by
  have hkk : (k' == k) = false := by simpa using h
  induction d with
  | nil => simp [dict_set, dict_get, List.lookup, hkk]
  | cons p ps ih =>
    by_cases hp : p.1 = k
    · subst hp
      simp only [dict_set, if_pos rfl, dict_get, List.lookup]
      simp [hkk]
    · simp only [dict_set, if_neg hp, dict_get, List.lookup]
      cases hh : (k' == p.1) <;> simp only [hh]
      exact ih

theorem dict_get_fold_false_of_not_mem (L : List String)
    (d : List (String × Bool)) (p : String) (h : ∀ e ∈ L, e ≠ p) :
    dict_get (L.foldl (fun d e => dict_set d e false) d) p = dict_get d p := by
  induction L generalizing d with
  | nil => rfl
  | cons x xs ih =>
    simp only [List.foldl_cons]
    rw [ih _ (fun e he => h e (List.mem_cons_of_mem _ he)),
      dict_get_set_ne _ _ _ _
        (fun hpx => h x (List.mem_cons_self _ _) hpx.symm)]

theorem dict_get_fold_false_of_mem (L : List String)
    (d : List (String × Bool)) (e : String) (h : e ∈ L) :
    dict_get (L.foldl (fun d e => dict_set d e false) d) e = some false := by
  induction L generalizing d with
  | nil => simp at h
  | cons x xs ih =>
    simp only [List.foldl_cons]
    by_cases hx : e ∈ xs
    · exact ih _ hx
    · have hex : e = x := by
        rcases List.mem_cons.mp h with h1 | h2
        · exact h1
        · exact absurd h2 hx
      subst hex
      rw [dict_get_fold_false_of_not_mem xs _ e
        (fun y hy hye => hx (hye ▸ hy))]
      exact dict_get_set_self _ _ _

theorem mem_set_add (s : List String) (x y : String) :
    y ∈ set_add s x ↔ y ∈ s ∨ y = x := by
  unfold set_add
  split
  · constructor
    · exact fun h => Or.inl h
    · rintro (h | rfl)
      · exact h
      · assumption
  · simp [List.mem_append]

/-! ## Composition lemmas for the predicate builder -/

theorem build_q_single_unfold (P : ExternalParsers) (st : FilterState)
    (nonce : List Char) (name op : String) (v : List Char) (m : MappedItem)
    (hreg : List.lookup name st.filters = some (.single m)) :
    build_q_for_registered_filter_q P st nonce name op v none =
      match get_filter_lookup name op v m.lookups m.null_values with
      | .error e => .error e
      | .ok fl =>
        match get_django_lookup nonce fl v m.null_values with
        | .error e => .error e
        | .ok dl =>
          match get_typed_value P nonce name fl v m.field
              (m.use_repr.getD false) m.null_values dl with
          | .error e => .error e
          | .ok tv => .ok (build_django_q m.orm_route dl fl tv) := by
  unfold build_q_for_registered_filter_q
  rw [hreg]
  rfl

theorem build_q_many_unfold (P : ExternalParsers) (st : FilterState)
    (nonce : List Char) (name op : String) (v : List Char) (m0 : MappedItem)
    (rest : List MappedItem)
    (hreg : List.lookup name st.filters = some (.many (m0 :: rest))) :
    build_q_for_registered_filter_q P st nonce name op v none =
      match get_filter_lookup name op v m0.lookups m0.null_values with
      | .error e => .error e
      | .ok fl =>
        match get_django_lookup nonce fl v m0.null_values with
        | .error e => .error e
        | .ok dl =>
          match get_typed_value P nonce name fl v m0.field
              (m0.use_repr.getD false) m0.null_values dl with
          | .error e => .error e
          | .ok tv => .ok (fan_out_q (m0 :: rest) dl fl tv) := by
  unfold build_q_for_registered_filter_q
  rw [hreg]
  rfl

theorem build_q_single_of_oks (P : ExternalParsers) (st : FilterState)
    (nonce : List Char) (name op : String) (v : List Char) (m : MappedItem)
    (fl : FilterLookups) (dl : DjangoLookups) (tv : TypedValue)
    (hreg : List.lookup name st.filters = some (.single m))
    (hfl : get_filter_lookup name op v m.lookups m.null_values = .ok fl)
    (hdl : get_django_lookup nonce fl v m.null_values = .ok dl)
    (htv : get_typed_value P nonce name fl v m.field (m.use_repr.getD false)
      m.null_values dl = .ok tv) :
    build_q_for_registered_filter_q P st nonce name op v none =
      .ok (build_django_q m.orm_route dl fl tv) := by
  rw [build_q_single_unfold P st nonce name op v m hreg]
  simp [hfl, hdl, htv]

theorem build_q_single_of_lookup_err (P : ExternalParsers) (st : FilterState)
    (nonce : List Char) (name op : String) (v : List Char) (m : MappedItem)
    (e : RQLError)
    (hreg : List.lookup name st.filters = some (.single m))
    (hfl : get_filter_lookup name op v m.lookups m.null_values = .error e) :
    build_q_for_registered_filter_q P st nonce name op v none = .error e := by
  rw [build_q_single_unfold P st nonce name op v m hreg]
  simp [hfl]

theorem build_q_many_of_oks (P : ExternalParsers) (st : FilterState)
    (nonce : List Char) (name op : String) (v : List Char) (m0 : MappedItem)
    (rest : List MappedItem) (fl : FilterLookups) (dl : DjangoLookups)
    (tv : TypedValue)
    (hreg : List.lookup name st.filters = some (.many (m0 :: rest)))
    (hfl : get_filter_lookup name op v m0.lookups m0.null_values = .ok fl)
    (hdl : get_django_lookup nonce fl v m0.null_values = .ok dl)
    (htv : get_typed_value P nonce name fl v m0.field (m0.use_repr.getD false)
      m0.null_values dl = .ok tv) :
    build_q_for_registered_filter_q P st nonce name op v none =
      .ok (fan_out_q (m0 :: rest) dl fl tv) := by
  rw [build_q_many_unfold P st nonce name op v m0 rest hreg]
  simp [hfl, hdl, htv]

theorem registered_distinct_single (st : FilterState) (name : String)
    (m : MappedItem) (dist : Bool)
    (hreg : List.lookup name st.filters = some (.single m)) :
    registered_filter_distinct st name dist = (dist || m.distinct) := by
  unfold registered_filter_distinct get_filter_base_item
  rw [hreg]
  rfl

theorem registered_distinct_many (st : FilterState) (name : String)
    (m0 : MappedItem) (rest : List MappedItem) (dist : Bool)
    (hreg : List.lookup name st.filters = some (.many (m0 :: rest))) :
    registered_filter_distinct st name dist = (dist || m0.distinct) := by
  unfold registered_filter_distinct get_filter_base_item
  rw [hreg]
  rfl

theorem get_filter_lookup_resolved (name op : String) (v : List Char)
    (avail : List FilterLookups) (nulls : List (List Char))
    (fl : FilterLookups)
    (hop : get_filter_lookup_by_operator op = some fl) :
    get_filter_lookup name op v avail nulls =
      get_filter_lookup_checked name fl v avail nulls := by
  unfold get_filter_lookup
  rw [hop]

/-- `_get_filter_lookup` accepts `EQ`/`NE` against a null-sentinel value
when the `NULL` lookup (and the lookup itself) is permitted. -/
theorem get_filter_lookup_null_ok (name op : String) (v : List Char)
    (avail : List FilterLookups) (nulls : List (List Char))
    (fl : FilterLookups)
    (hop : get_filter_lookup_by_operator op = some fl)
    (hfl : fl = .EQ ∨ fl = .NE)
    (_hnull : v ∈ nulls) (hNULL : FilterLookups.NULL ∈ avail)
    (hin : fl ∈ avail) :
    get_filter_lookup name op v avail nulls = .ok fl := by
  rw [get_filter_lookup_resolved name op v avail nulls fl hop]
  unfold get_filter_lookup_checked
  rw [if_neg (fun hc => hc.2.elim (fun hn => hn hNULL) (fun hn => hn hfl))]
  by_cases hv : v = RQL_EMPTY
  · rw [if_neg (by
      simp only [hv, if_pos]
      rcases hfl with rfl | rfl <;> simp)]
  · rw [if_neg (by
      simp only [if_neg hv]
      simp [hin])]

/-- `_get_filter_lookup` rejects any non-`EQ`/`NE` lookup against a
null-sentinel value. -/
theorem get_filter_lookup_null_err (name op : String) (v : List Char)
    (avail : List FilterLookups) (nulls : List (List Char))
    (fl : FilterLookups)
    (hop : get_filter_lookup_by_operator op = some fl)
    (hfl : ¬(fl = .EQ ∨ fl = .NE)) (hnull : v ∈ nulls) :
    get_filter_lookup name op v avail nulls =
      .error (.lookupError ⟨name, fl, v⟩) := by
  rw [get_filter_lookup_resolved name op v avail nulls fl hop]
  unfold get_filter_lookup_checked
  rw [if_pos ⟨hnull, Or.inr hfl⟩]

theorem get_django_lookup_null (nonce : List Char) (fl : FilterLookups)
    (v : List Char) (nulls : List (List Char)) (hnull : v ∈ nulls) :
    get_django_lookup nonce fl v nulls = .ok .NULL := by
  unfold get_django_lookup
  rw [if_pos hnull]

theorem get_typed_value_null (P : ExternalParsers) (nonce : List Char)
    (name : String) (fl : FilterLookups) (v : List Char)
    (field : DjangoField) (use_repr : Bool) (nulls : List (List Char))
    (dl : DjangoLookups) (hnull : v ∈ nulls) :
    get_typed_value P nonce name fl v field use_repr nulls dl =
      .ok (.bool true) := by
  unfold get_typed_value
  rw [if_pos hnull]

/-! ## Claim theorems -/

/-- C1: for every filter name absent from the compiled Filter Registry
that is not the reserved search name, `build_q_for_filter` returns the
neutral always-true predicate `Q()` — for any operator, raw value and list
operator — never an error, and leaves the dedup flag unchanged. -/
theorem C1_unknown_filter_neutral (P : ExternalParsers) (st : FilterState)
    (nonce : List Char) (filter_name operator : String)
    (str_value : List Char) (list_operator : Option String)
    (is_distinct : Bool)
    (habsent : List.lookup filter_name st.filters = none)
    (hsearch : filter_name ≠ RQL_SEARCH_PARAM) :
    build_q_for_filter P st nonce filter_name operator str_value
      list_operator is_distinct = (.ok Q.empty, is_distinct) := by
  unfold build_q_for_filter
  rw [if_neg hsearch]
  unfold build_q_for_registered_filter build_q_for_registered_filter_q
    registered_filter_distinct get_filter_base_item
  rw [habsent]
  rfl

/-- Witness for C1 on a concrete empty registry. -/
theorem C1_unknown_filter_neutral_witness :
    build_q_for_filter test_parsers (mk_state [] [] [] []) nonce0 "absent"
      "ge" "anything".data (some "in") true = (.ok Q.empty, true) :=
  C1_unknown_filter_neutral test_parsers (mk_state [] [] [] []) nonce0
    "absent" "ge" "anything".data (some "in") true rfl (by decide)

/-- C6: the claim says the result set is deduplicated only when a visited
descriptor carries the dedup flag or the class declares `DISTINCT`; the
shipped transformer's `start`, however, unconditionally applies
`.distinct()` to the filtered queryset, so deduplication happens even when
`_is_distinct` is `false` — the code contradicts the conditional
deduplication logic of `apply_filters` (lines 98-99). -/
theorem C6_start_always_applies_distinct (qs : QuerySet) (q : Q)
    (is_distinct : Bool) :
    (apply_filters_distinct_step is_distinct
        (RQLToDjangoORMTransformer.start qs q)).distinct_applied = true := by
  unfold apply_filters_distinct_step RQLToDjangoORMTransformer.start
    QuerySet.distinct QuerySet.filter
  split <;> rfl

/-- C2 counterexample: schema compilation of a non-nullable string
attribute with default options keeps the default null sentinel but
discards the `NULL` lookup, so `f=eq=null()` raises a lookup error instead
of producing the is-null predicate the claim promises. -/
theorem C2_null_sentinel_cex :
    ("null()".data ∈ m_c2.null_values ∧
      FilterLookups.EQ ∈ m_c2.lookups ∧
      FilterLookups.NULL ∉ m_c2.lookups) ∧
    build_q_for_registered_filter test_parsers st_c2 nonce0 "f" "eq"
        "null()".data none false =
      (.error (.lookupError ⟨"f", .EQ, "null()".data⟩), false) := by
  constructor
  · refine ⟨by decide, by decide, by decide⟩
  · rfl

/-- C2 (amended): for a registered single-source non-custom filter whose
permitted lookups contain the null lookup, a null-sentinel raw value with
operator `eq`/`ne` (when that lookup is permitted) produces the is-null
comparison with typed value `True` mapped to the null lookup (negated for
`ne`), and any other operator raises a lookup error carrying the filter
name, lookup and raw value. -/
theorem C2_null_sentinel_amended (P : ExternalParsers) (st : FilterState)
    (nonce : List Char) (filter_name : String) (m : MappedItem)
    (str_value : List Char) (is_distinct : Bool)
    (hreg : List.lookup filter_name st.filters = some (.single m))
    (hnull : str_value ∈ m.null_values)
    (hNULL : FilterLookups.NULL ∈ m.lookups) :
    (FilterLookups.EQ ∈ m.lookups →
      build_q_for_registered_filter P st nonce filter_name "eq" str_value
          none is_distinct =
        (.ok (.leaf ⟨m.orm_route, .NULL, .bool true⟩),
          is_distinct || m.distinct)) ∧
    (FilterLookups.NE ∈ m.lookups →
      build_q_for_registered_filter P st nonce filter_name "ne" str_value
          none is_distinct =
        (.ok (.not (.leaf ⟨m.orm_route, .NULL, .bool true⟩)),
          is_distinct || m.distinct)) ∧
    (∀ operator fl, operator ∈ ["lt", "le", "gt", "ge", "like", "ilike"] →
      get_filter_lookup_by_operator operator = some fl →
      build_q_for_registered_filter P st nonce filter_name operator
          str_value none is_distinct =
        (.error (.lookupError ⟨filter_name, fl, str_value⟩),
          is_distinct || m.distinct)) := by
  refine ⟨?_, ?_, ?_⟩
  · intro hEQ
    unfold build_q_for_registered_filter
    rw [registered_distinct_single st filter_name m is_distinct hreg,
      build_q_single_of_oks P st nonce filter_name "eq" str_value m .EQ
        .NULL (.bool true) hreg
        (get_filter_lookup_null_ok filter_name "eq" str_value m.lookups
          m.null_values .EQ rfl (Or.inl rfl) hnull hNULL hEQ)
        (get_django_lookup_null nonce .EQ str_value m.null_values hnull)
        (get_typed_value_null P nonce filter_name .EQ str_value m.field
          (m.use_repr.getD false) m.null_values .NULL hnull)]
    rfl
  · intro hNE
    unfold build_q_for_registered_filter
    rw [registered_distinct_single st filter_name m is_distinct hreg,
      build_q_single_of_oks P st nonce filter_name "ne" str_value m .NE
        .NULL (.bool true) hreg
        (get_filter_lookup_null_ok filter_name "ne" str_value m.lookups
          m.null_values .NE rfl (Or.inr rfl) hnull hNULL hNE)
        (get_django_lookup_null nonce .NE str_value m.null_values hnull)
        (get_typed_value_null P nonce filter_name .NE str_value m.field
          (m.use_repr.getD false) m.null_values .NULL hnull)]
    rfl
  · intro operator fl hmem hop
    unfold build_q_for_registered_filter
    rw [registered_distinct_single st filter_name m is_distinct hreg,
      build_q_single_of_lookup_err P st nonce filter_name operator str_value
        m _ hreg
        (get_filter_lookup_null_err filter_name operator str_value m.lookups
          m.null_values fl hop ?_ hnull)]
    fin_cases hmem <;> (injection hop with hop'; subst hop'; simp)

/-- Witness for the amended C2 on a nullable string filter. -/
theorem C2_null_sentinel_amended_witness :
    build_q_for_registered_filter test_parsers st_c2w nonce0 "f" "ne"
        "null()".data none false =
      (.ok (.not (.leaf ⟨"f", .NULL, .bool true⟩)), false) := by
  have h := (C2_null_sentinel_amended test_parsers st_c2w nonce0 "f" m_c2w
    "null()".data false rfl (by decide) (by decide)).2.1 (by decide)
  exact h

theorem build_django_q_ne_empty (r : String) (dl : DjangoLookups)
    (fl : FilterLookups) (tv : TypedValue) :
    build_django_q r dl fl tv ≠ Q.empty := by
  unfold build_django_q
  split <;> simp

/-- C3: a multi-source fan-out filter combines the per-source leaf
predicates with OR for every lookup except `NE` — a record matches if any
source matches — while for `NE` it combines the negated leaves with AND —
a record matches only if it differs from the value in every source; a
single-source filter returns its single leaf predicate directly. -/
theorem C3_fan_out_semantics (P : ExternalParsers) (st : FilterState)
    (nonce : List Char) (name op : String) (v : List Char)
    (fl : FilterLookups) (dl : DjangoLookups) (tv : TypedValue) :
    (∀ (m0 : MappedItem) (rest : List MappedItem),
      List.lookup name st.filters = some (.many (m0 :: rest)) →
      get_filter_lookup name op v m0.lookups m0.null_values = .ok fl →
      get_django_lookup nonce fl v m0.null_values = .ok dl →
      get_typed_value P nonce name fl v m0.field (m0.use_repr.getD false)
        m0.null_values dl = .ok tv →
      build_q_for_registered_filter_q P st nonce name op v none =
        .ok (fan_out_q (m0 :: rest) dl fl tv) ∧
      (∀ ρ, fl ≠ .NE →
        (fan_out_q (m0 :: rest) dl fl tv).eval ρ =
          (m0 :: rest).any (fun m => ρ ⟨m.orm_route, dl, tv⟩)) ∧
      (∀ ρ, fl = .NE →
        (fan_out_q (m0 :: rest) dl fl tv).eval ρ =
          (m0 :: rest).all (fun m => !ρ ⟨m.orm_route, dl, tv⟩))) ∧
    (∀ m : MappedItem,
      List.lookup name st.filters = some (.single m) →
      get_filter_lookup name op v m.lookups m.null_values = .ok fl →
      get_django_lookup nonce fl v m.null_values = .ok dl →
      get_typed_value P nonce name fl v m.field (m.use_repr.getD false)
        m.null_values dl = .ok tv →
      build_q_for_registered_filter_q P st nonce name op v none =
        .ok (build_django_q m.orm_route dl fl tv)) := by
  constructor
  · intro m0 rest hreg hfl hdl htv
    refine ⟨build_q_many_of_oks P st nonce name op v m0 rest fl dl tv hreg
      hfl hdl htv, ?_, ?_⟩
    · intro ρ hne
      unfold fan_out_q
      simp only [if_neg hne]
      rw [eval_foldl_orQ_empty ρ
        (fun m => build_django_q m.orm_route dl fl tv) (m0 :: rest)
        (fun m _ => build_django_q_ne_empty m.orm_route dl fl tv)]
      simp [build_django_q, if_neg hne, Q.eval]
    · intro ρ hne
      subst hne
      unfold fan_out_q
      simp only [eq_self_iff_true, if_true]
      rw [eval_foldl_andQ ρ
        (fun m => build_django_q m.orm_route dl .NE tv) (m0 :: rest) Q.empty]
      simp [build_django_q, Q.eval]
  · intro m hreg hfl hdl htv
    exact build_q_single_of_oks P st nonce name op v m fl dl tv hreg hfl hdl
      htv

/-- Witness for C3: the two-source filter `f` with sources `a`, `b`. -/
theorem C3_fan_out_semantics_witness :
    build_q_for_registered_filter_q test_parsers st_c3 nonce0 "f" "eq"
        "x".data none =
      .ok (fan_out_q [m_src_a, m_src_b] .EXACT .EQ (.str "x".data)) :=
  ((C3_fan_out_semantics test_parsers st_c3 nonce0 "f" "eq" "x".data .EQ
      .EXACT (.str "x".data)).1 m_src_a [m_src_b] rfl rfl rfl rfl).1

theorem build_filters_sources_field_fixed (get_field : String → DjangoField)
    (orm_route : String) (lookups : Option (List FilterLookups))
    (use_repr : Option Bool) (null_values : Option (List (List Char)))
    (distinct : Option Bool) (f : DjangoField) :
    ∀ (sources : List String) (m : MappedItem),
      m ∈ build_filters_sources_items get_field orm_route lookups use_repr
        null_values distinct (some f) sources → m.field = f := by
  intro sources
  induction sources with
  | nil => intro m hm; simp [build_filters_sources_items] at hm
  | cons s rest ih =>
    intro m hm
    simp only [build_filters_sources_items, List.mem_cons] at hm
    rcases hm with rfl | hm
    · rfl
    · exact ih m hm

/-- A generalization of `build_q_many_unfold` to an arbitrary list
operator. -/
theorem build_q_many_unfold_lop (P : ExternalParsers) (st : FilterState)
    (nonce : List Char) (name op : String) (v : List Char)
    (lop : Option String) (m0 : MappedItem) (rest : List MappedItem)
    (hreg : List.lookup name st.filters = some (.many (m0 :: rest))) :
    build_q_for_registered_filter_q P st nonce name op v lop =
      match (match lop with
        | none => none
        | some l =>
          if (if l = "in" then FilterLookups.IN else FilterLookups.OUT) ∉
              m0.lookups then
            some (RQLError.lookupError
              ⟨name, (if l = "in" then FilterLookups.IN else FilterLookups.OUT),
                v⟩)
          else none : Option RQLError) with
      | some e => .error e
      | none =>
        match get_filter_lookup name op v m0.lookups m0.null_values with
        | .error e => .error e
        | .ok fl =>
          match get_django_lookup nonce fl v m0.null_values with
          | .error e => .error e
          | .ok dl =>
            match get_typed_value P nonce name fl v m0.field
                (m0.use_repr.getD false) m0.null_values dl with
            | .error e => .error e
            | .ok tv => .ok (fan_out_q (m0 :: rest) dl fl tv) := by
  unfold build_q_for_registered_filter_q
  rw [hreg]
  cases lop <;> rfl

theorem fan_out_q_congr (dl : DjangoLookups) (fl : FilterLookups)
    (tv : TypedValue) :
    ∀ (ms ms' : List MappedItem) (q : Q),
      ms.map MappedItem.orm_route = ms'.map MappedItem.orm_route →
      ms.foldl
        (fun q m =>
          let item_q := build_django_q m.orm_route dl fl tv
          if fl = FilterLookups.NE then q.andQ item_q else q.orQ item_q) q =
      ms'.foldl
        (fun q m =>
          let item_q := build_django_q m.orm_route dl fl tv
          if fl = FilterLookups.NE then q.andQ item_q else q.orQ item_q) q := by
  intro ms
  induction ms with
  | nil =>
    intro ms' q h
    have : ms' = [] := by
      cases ms' with
      | nil => rfl
      | cons _ _ => simp at h
    subst this
    rfl
  | cons m r ih =>
    intro ms' q h
    cases ms' with
    | nil => simp at h
    | cons m' r' =>
      simp only [List.map_cons, List.cons.injEq] at h
      simp only [List.foldl_cons]
      rw [h.1]
      exact ih r' _ h.2

theorem fan_out_q_eq_of_routes (ms ms' : List MappedItem)
    (dl : DjangoLookups) (fl : FilterLookups) (tv : TypedValue)
    (h : ms.map MappedItem.orm_route = ms'.map MappedItem.orm_route) :
    fan_out_q ms dl fl tv = fan_out_q ms' dl fl tv := by
  unfold fan_out_q
  exact fan_out_q_congr dl fl tv ms ms' Q.empty h

/-- C10: for a fan-out filter declared without an explicit field override,
the field resolved for the first listed source is reused for every later
source's descriptor; `get_filter_base_item` returns the first descriptor;
and the whole query-time validation/coercion pipeline consults only that
first descriptor — replacing anything but the route in the non-head
descriptors cannot change the built predicate. -/
theorem C10_first_descriptor_authoritative :
    (∀ (get_field : String → DjangoField) (orm_route : String)
        (lookups : Option (List FilterLookups)) (use_repr : Option Bool)
        (null_values : Option (List (List Char))) (distinct : Option Bool)
        (s0 : String) (rest : List String) (m : MappedItem),
      m ∈ build_filters_sources_items get_field orm_route lookups use_repr
        null_values distinct none (s0 :: rest) →
      m.field = get_field s0) ∧
    (∀ (st : FilterState) (name : String) (ms : List MappedItem),
      List.lookup name st.filters = some (.many ms) →
      get_filter_base_item st name = ms.head?.map MappedItem.baseOf) ∧
    (∀ (P : ExternalParsers) (st st' : FilterState) (nonce : List Char)
        (name op : String) (v : List Char) (lop : Option String)
        (m0 : MappedItem) (r r' : List MappedItem),
      List.lookup name st.filters = some (.many (m0 :: r)) →
      List.lookup name st'.filters = some (.many (m0 :: r')) →
      r.map MappedItem.orm_route = r'.map MappedItem.orm_route →
      build_q_for_registered_filter_q P st nonce name op v lop =
        build_q_for_registered_filter_q P st' nonce name op v lop) := by
  refine ⟨?_, ?_, ?_⟩
  · intro get_field orm_route lookups use_repr null_values distinct s0 rest m
      hm
    simp only [build_filters_sources_items, List.mem_cons] at hm
    rcases hm with rfl | hm
    · rfl
    · exact build_filters_sources_field_fixed get_field orm_route lookups
        use_repr null_values distinct (get_field s0) rest m hm
  · intro st name ms hreg
    unfold get_filter_base_item
    rw [hreg]
    rfl
  · intro P st st' nonce name op v lop m0 r r' hreg hreg' hroutes
    have hfan : ∀ (dl : DjangoLookups) (fl : FilterLookups) (tv : TypedValue),
        fan_out_q (m0 :: r) dl fl tv = fan_out_q (m0 :: r') dl fl tv :=
      fun dl fl tv =>
        fan_out_q_eq_of_routes (m0 :: r) (m0 :: r') dl fl tv
          (by simp [hroutes])
    rw [build_q_many_unfold_lop P st nonce name op v lop m0 r hreg,
      build_q_many_unfold_lop P st' nonce name op v lop m0 r' hreg']
    simp only [hfan]

/-- Witness for C10: the registered fan-out filter over sources `s1`, `s2`
reuses `s1`'s field for `s2`, and rewriting the second descriptor's field,
lookups, null sentinels and distinct flag (keeping its route) leaves the
built predicate unchanged. -/
theorem C10_first_descriptor_witness :
    (build_mapped_item str_field "s2" none none none none).field =
        get_field0 "s1" ∧
    build_q_for_registered_filter_q test_parsers st_c10 nonce0 "f" "eq"
        "x".data none =
      build_q_for_registered_filter_q test_parsers st_c10_alt nonce0 "f" "eq"
        "x".data none := by
  constructor
  · exact C10_first_descriptor_authoritative.1 get_field0 "" none none none
      none "s1" ["s2"]
      (build_mapped_item str_field "s2" none none none none)
      (by decide)
  · exact C10_first_descriptor_authoritative.2.2 test_parsers st_c10
      st_c10_alt nonce0 "f" "eq" "x".data none
      (build_mapped_item str_field "s1" none none none none)
      [build_mapped_item str_field "s2" none none none none]
      [{ build_mapped_item str_field "s2" none none none none with
          field := int_field
          lookups := [FilterLookups.EQ]
          null_values := ["nil()".data]
          distinct := true }]
      rfl rfl rfl

/-- C8: applying ordering is the identity for zero token groups; more than
one group raises the only-one-ordering-operation parsing error; within the
single group, a token whose name (after stripping an optional leading
descending marker) is not in the ordering-eligible registry raises a
parsing error naming it; an eligible name expands every underlying source,
in declaration order, into one sortable path carrying the token's
directional marker. -/
theorem C8_ordering_resolution :
    (∀ (st : FilterState) (qs : QuerySet) (d : Bool),
      apply_ordering st qs [] d = .ok (qs, d)) ∧
    (∀ (st : FilterState) (qs : QuerySet) (d : Bool) (g1 g2 : List String)
        (gs : List (List String)),
      apply_ordering st qs (g1 :: g2 :: gs) d =
        .error (.parsingError
          "Bad ordering filter: query can contain only one ordering operation.")) ∧
    (∀ (st : FilterState) (qs : QuerySet) (d : Bool) (g : List String),
      apply_ordering st qs [g] d =
        match ordering_group_fields st g d with
        | .error e => .error e
        | .ok (fields, d) => .ok (qs.order_by fields, d)) ∧
    (∀ (st : FilterState) (prop : String) (rest : List String) (d : Bool),
      ordering_token_name prop ∉ st.ordering_filters →
      ordering_group_fields st (prop :: rest) d =
        .error (.parsingError
          ("Bad ordering filter: " ++ ordering_token_name prop ++ "."))) ∧
    (∀ (st : FilterState) (prop : String) (rest : List String) (d : Bool)
        (ms : List MappedItem),
      ordering_token_name prop ∈ st.ordering_filters →
      List.lookup (ordering_token_name prop) st.filters =
        some (.many ms) →
      ordering_group_fields st (prop :: rest) d =
        match ordering_group_fields st rest
            (ms.foldl (fun a m => a || m.distinct) d) with
        | .error e => .error e
        | .ok (fields, d) =>
          .ok (ms.map (fun m => ordering_token_sign prop ++ m.orm_route) ++
            fields, d)) ∧
    (∀ (st : FilterState) (prop : String) (rest : List String) (d : Bool)
        (m : MappedItem),
      ordering_token_name prop ∈ st.ordering_filters →
      List.lookup (ordering_token_name prop) st.filters =
        some (.single m) →
      ordering_group_fields st (prop :: rest) d =
        match ordering_group_fields st rest (d || m.distinct) with
        | .error e => .error e
        | .ok (fields, d) =>
          .ok ((ordering_token_sign prop ++ m.orm_route) :: fields, d)) := by
  refine ⟨?_, ?_, ?_, ?_, ?_, ?_⟩
  · intro st qs d; rfl
  · intro st qs d g1 g2 gs; rfl
  · intro st qs d g; rfl
  · intro st prop rest d hni
    simp only [ordering_group_fields]
    rw [if_pos hni]
  · intro st prop rest d ms hmem hreg
    simp only [ordering_group_fields]
    rw [if_neg (fun h => h hmem), hreg]
    rfl
  · intro st prop rest d m hmem hreg
    simp only [ordering_group_fields]
    rw [if_neg (fun h => h hmem), hreg]
    rfl

/-- Witness for C8 on the two-source ordering-eligible filter `a` with a
descending token. -/
theorem C8_ordering_resolution_witness :
    apply_ordering st_c8 qs0 [["-a"]] false =
      .ok (qs0.order_by ["-a", "-b"], false) := by
  rw [C8_ordering_resolution.2.2.1 st_c8 qs0 false ["-a"],
    C8_ordering_resolution.2.2.2.2.1 st_c8 "-a" [] false
      [m_src_a, m_src_b] (by decide) rfl]
  rfl

/-- C9 counterexample: a parseable date literal is validated but the
coerced value is the literal string, not a typed date value. -/
theorem C9_value_coercion_cex :
    convert_value test_parsers date_field "2020-01-01".data false =
      .ok (.str "2020-01-01".data) ∧
    convert_value test_parsers date_field "2020-01-01".data false ≠
      .ok (.date 737790) := by
  refine ⟨rfl, ?_⟩
  intro h
  have h' : (Except.ok (TypedValue.str "2020-01-01".data) :
      Except Unit TypedValue) = .ok (.date 737790) := h
  injection h' with h''
  simp at h''

/-- C9 (amended): value coercion is a deterministic function of the
declared type and the quote-stripped literal.  Float literals delegate to
the float parser and fail exactly when it fails; fixed-point values are
parsed as floats then rounded to the declared decimal precision; date and
datetime literals are validated by the ISO-8601 parser — failing, not
defaulting, on unparseable input — but the value passed through (for a
choices-free field, off the empty sentinel) is the quote-stripped literal
string itself, not a typed date object; boolean accepts exactly the two
canonical literals; integer (choices-free) rejects the empty sentinel and
otherwise delegates to the base-10 parser, failing exactly when it
fails. -/
theorem C9_value_coercion (P : ExternalParsers) (f : DjangoField)
    (v : List Char) (u : Bool) :
    (f.filterType = FilterTypes.FLOAT →
      (P.parseFloat (remove_quotes v) = none →
        convert_value P f v u = .error ()) ∧
      (∀ q, P.parseFloat (remove_quotes v) = some q →
        convert_value P f v u = .ok (.float q))) ∧
    (f.filterType = FilterTypes.DECIMAL →
      (P.parseFloat (remove_quotes v) = none →
        convert_value P f v u = .error ()) ∧
      (∀ q, P.parseFloat (remove_quotes v) = some q →
        convert_value P f v u = .ok (.float (P.pyRound q f.decimal_places)))) ∧
    (f.filterType = FilterTypes.DATE →
      (P.parseDate (remove_quotes v) = none →
        convert_value P f v u = .error ()) ∧
      (∀ d, P.parseDate (remove_quotes v) = some d → f.choices = none →
        remove_quotes v ≠ RQL_EMPTY →
        convert_value P f v u = .ok (.str (remove_quotes v)))) ∧
    (f.filterType = FilterTypes.DATETIME →
      (P.parseDatetime (remove_quotes v) = none →
        convert_value P f v u = .error ()) ∧
      (∀ d, P.parseDatetime (remove_quotes v) = some d → f.choices = none →
        remove_quotes v ≠ RQL_EMPTY →
        convert_value P f v u = .ok (.str (remove_quotes v)))) ∧
    (f.filterType = FilterTypes.BOOLEAN →
      (remove_quotes v ≠ RQL_FALSE ∧ remove_quotes v ≠ RQL_TRUE →
        convert_value P f v u = .error ()) ∧
      (remove_quotes v = RQL_TRUE → convert_value P f v u = .ok (.bool true)) ∧
      (remove_quotes v = RQL_FALSE →
        convert_value P f v u = .ok (.bool false))) ∧
    (f.filterType = FilterTypes.INT → f.choices = none →
      (remove_quotes v = RQL_EMPTY → convert_value P f v u = .error ()) ∧
      (remove_quotes v ≠ RQL_EMPTY →
        (P.parseInt (remove_quotes v) = none →
          convert_value P f v u = .error ()) ∧
        (∀ i, P.parseInt (remove_quotes v) = some i →
          convert_value P f v u = .ok (.int i)))) := by
  refine ⟨?_, ?_, ?_, ?_, ?_, ?_⟩
  · intro hft
    refine ⟨fun hpf => ?_, fun q hpf => ?_⟩ <;> simp [convert_value, hft, hpf]
  · intro hft
    refine ⟨fun hpf => ?_, fun q hpf => ?_⟩ <;> simp [convert_value, hft, hpf]
  · intro hft
    refine ⟨fun hpd => ?_, fun d hpd hch hne => ?_⟩ <;>
      simp [convert_value, convert_value_tail, hft, hpd, *]
  · intro hft
    refine ⟨fun hpd => ?_, fun d hpd hch hne => ?_⟩ <;>
      simp [convert_value, convert_value_tail, hft, hpd, *]
  · intro hft
    refine ⟨fun hb => ?_, fun hb => ?_, fun hb => ?_⟩
    · simp [convert_value, hft, hb.1, hb.2]
    · simp [convert_value, hft, hb,
        (by decide : ¬(RQL_TRUE = RQL_FALSE))]
    · simp [convert_value, hft, hb,
        (by decide : ¬(RQL_FALSE = RQL_TRUE))]
  · intro hft hch
    refine ⟨fun hemp => ?_, fun hne => ⟨fun hpi => ?_, fun i hpi => ?_⟩⟩ <;>
      simp [convert_value, convert_value_tail, hft, hch, *]

/-- Witness for C9 on the base-10 integer literal `7`. -/
theorem C9_value_coercion_witness :
    convert_value test_parsers int_field "7".data false = .ok (.int 7) :=
  (((C9_value_coercion test_parsers int_field "7".data false).2.2.2.2.2
      rfl rfl).2 (by decide)).2 7 rfl

theorem searching_pattern_eq_spec (val : List Char) :
    searching_pattern val = spec_pattern_kind val := by
  by_cases h1 : RQL_ANY_SYMBOL ∈ val
  · have hc0 : ¬val.count RQL_ANY_SYMBOL = 0 := by
      simp only [List.count_eq_zero]
      exact fun h => h h1
    by_cases h2 : val = [RQL_ANY_SYMBOL]
    · simp [searching_pattern, spec_pattern_kind, h1, h2]
    · by_cases hc1 : val.count RQL_ANY_SYMBOL = 1
      · by_cases hh : val.head? = some RQL_ANY_SYMBOL
        · simp [searching_pattern, spec_pattern_kind, h1, h2, hc0, hc1, hh]
        · by_cases hl : val.getLast? = some RQL_ANY_SYMBOL
          · simp [searching_pattern, spec_pattern_kind, h1, h2, hc0, hc1, hh,
              hl]
          · simp [searching_pattern, spec_pattern_kind, h1, h2, hc0, hc1, hh,
              hl]
      · by_cases hc2 : val.count RQL_ANY_SYMBOL = 2
        · by_cases hh : val.head? = some RQL_ANY_SYMBOL
          · by_cases hl : val.getLast? = some RQL_ANY_SYMBOL
            · simp [searching_pattern, spec_pattern_kind, h1, h2, hc0, hc1,
                hc2, hh, hl]
            · simp [searching_pattern, spec_pattern_kind, h1, h2, hc0, hc1,
                hc2, hh, hl]
          · simp [searching_pattern, spec_pattern_kind, h1, h2, hc0, hc1,
              hc2, hh]
        · simp [searching_pattern, spec_pattern_kind, h1, h2, hc0, hc1, hc2]
  · have h2 : ¬val = [RQL_ANY_SYMBOL] := by
      rintro rfl
      exact h1 (List.mem_singleton_self _)
    have hc0 : val.count RQL_ANY_SYMBOL = 0 := List.count_eq_zero.mpr h1
    simp [searching_pattern, spec_pattern_kind, h1, h2, hc0]

theorem getLast?_eq_some_ne_nil {val : List Char} {a : Char}
    (h : val.getLast? = some a) : val ≠ [] := by
  rintro rfl
  simp at h

theorem regex_nv2_eq_amended (val : List Char) :
    pyReplace [RQL_ANY_SYMBOL] any_symbol_regex
      (if val.getLast? = some RQL_ANY_SYMBOL then
        (if val.head? = some RQL_ANY_SYMBOL then val.drop 1
          else '^' :: val).dropLast
       else
        (if val.head? = some RQL_ANY_SYMBOL then val.drop 1
          else '^' :: val) ++ ['$']) =
      amended_regex_value val := by
  by_cases hh : val.head? = some RQL_ANY_SYMBOL <;>
    by_cases hl : val.getLast? = some RQL_ANY_SYMBOL
  · simp only [amended_regex_value, if_pos hh, if_pos hl]
    rw [pyReplace_single_eq_join_split]
    simp
  · simp only [amended_regex_value, if_pos hh, if_neg hl]
    rw [pyReplace_single_append_ne _ _ _ '$' (by decide),
      pyReplace_single_eq_join_split]
    simp
  · obtain ⟨x, xs, rfl⟩ : ∃ x xs, val = x :: xs := by
      cases val with
      | nil => simp at hl
      | cons x xs => exact ⟨x, xs, rfl⟩
    simp only [amended_regex_value, if_neg hh, if_pos hl]
    have hdrop : ('^' :: x :: xs).dropLast = '^' :: (x :: xs).dropLast := rfl
    rw [hdrop, pyReplace_single_cons_ne _ _ _ _ (by decide),
      pyReplace_single_eq_join_split]
    simp
  · simp only [amended_regex_value, if_neg hh, if_neg hl]
    rw [List.cons_append, pyReplace_single_cons_ne _ _ _ _ (by decide),
      pyReplace_single_append_ne _ _ _ '$' (by decide),
      pyReplace_single_eq_join_split]
    simp

/-- C4 counterexample: (a) a value with two consecutive wildcards and
other content is rejected as a value error rather than translated to a
regex pattern; (b) a boundary wildcard is dropped, not replaced by the
non-greedy sub-pattern, so the built regex for `a*b*` differs from the
claim's construction; (c) the bare wildcard value gets a regex lookup, not
the ends-with lookup the claim's single-leading-wildcard case dictates. -/
theorem C4_wildcard_translation_cex :
    (get_searching_typed_value nonce0 .REGEX "a**b".data = .error ()) ∧
    (get_searching_typed_value nonce0 .REGEX "a*b*".data =
        .ok "^a(.*?)b".data ∧
      "^a(.*?)b".data ≠ "^a(.*?)b(.*?)".data) ∧
    (get_searching_django_lookup nonce0 .LIKE "*".data = .REGEX ∧
      DjangoLookups.REGEX ≠ DjangoLookups.ENDSWITH) := by
  refine ⟨rfl, ⟨rfl, by decide⟩, rfl, by decide⟩

/-- C4 (amended): on a backslash-free value the nonce reflection is the
identity; the lookup kind is a total function of wildcard placement —
exactly as claimed except that the bare wildcard value is a regex; any
(reflected) value containing two consecutive wildcards is rejected as a
value error when the typed pattern is built; for non-regex lookups the
typed pattern is the value with its wildcards removed; for regex lookups
the pattern anchors with `^`/`$` exactly at the boundaries lacking a
wildcard, drops boundary wildcards, and joins the remaining literal chunks
with the non-greedy any-characters sub-pattern (the bare wildcard value
yielding that sub-pattern alone).  The nonce no-op hypotheses state the
freshness of the `uuid4().hex` nonce on the concrete value. -/
theorem C4_wildcard_translation :
    (∀ (nonce s : List Char), '\\' ∉ remove_quotes s →
      reflect_like_value nonce s = remove_quotes s) ∧
    (∀ val : List Char, searching_pattern val = spec_pattern_kind val) ∧
    (∀ (nonce : List Char) (dl : DjangoLookups) (val : List Char),
      pyContains [RQL_ANY_SYMBOL, RQL_ANY_SYMBOL] val = true →
      searching_typed_core nonce dl val = .error ()) ∧
    (∀ (nonce : List Char) (dl : DjangoLookups) (val : List Char),
      dl ≠ .REGEX → dl ≠ .I_REGEX →
      pyContains [RQL_ANY_SYMBOL, RQL_ANY_SYMBOL] val = false →
      pyReplace nonce [RQL_ANY_SYMBOL]
          (val.filter (fun c => c ≠ RQL_ANY_SYMBOL)) =
        val.filter (fun c => c ≠ RQL_ANY_SYMBOL) →
      searching_typed_core nonce dl val =
        .ok (val.filter (fun c => c ≠ RQL_ANY_SYMBOL))) ∧
    (∀ (nonce : List Char) (dl : DjangoLookups),
      (dl = .REGEX ∨ dl = .I_REGEX) →
      searching_typed_core nonce dl [RQL_ANY_SYMBOL] = .ok any_symbol_regex) ∧
    (∀ (nonce : List Char) (dl : DjangoLookups) (val : List Char),
      (dl = .REGEX ∨ dl = .I_REGEX) →
      pyContains [RQL_ANY_SYMBOL, RQL_ANY_SYMBOL] val = false →
      val ≠ [RQL_ANY_SYMBOL] →
      pyReplace nonce [RQL_ANY_SYMBOL] (amended_regex_value val) =
        amended_regex_value val →
      searching_typed_core nonce dl val = .ok (amended_regex_value val)) := by
  refine ⟨reflect_like_value_of_no_backslash, searching_pattern_eq_spec,
    ?_, ?_, ?_, ?_⟩
  · intro nonce dl val hss
    simp [searching_typed_core, hss]
  · intro nonce dl val hdl1 hdl2 hss hfresh
    simp only [searching_typed_core]
    rw [if_neg (by simp [hss]),
      if_pos (show dl ≠ DjangoLookups.REGEX ∧ dl ≠ DjangoLookups.I_REGEX from
        ⟨hdl1, hdl2⟩),
      pyReplace_single_empty_eq_filter, hfresh]
  · intro nonce dl hdl
    rcases hdl with rfl | rfl <;> simp [searching_typed_core, pyContains,
      List.isPrefixOf, any_symbol_regex]
  · intro nonce dl val hdl hss hval hfresh
    simp only [searching_typed_core]
    rw [if_neg (by simp [hss]),
      if_neg (by rcases hdl with rfl | rfl <;> simp), if_neg hval,
      regex_nv2_eq_amended, hfresh]

/-- Witness for the amended C4 on the value `a*b` with nonce `xy`. -/
theorem C4_wildcard_translation_witness :
    searching_typed_core "xy".data .REGEX "a*b".data =
      .ok (amended_regex_value "a*b".data) :=
  C4_wildcard_translation.2.2.2.2.2 "xy".data .REGEX "a*b".data
    (Or.inl rfl) (by decide) (by decide) (by decide)

/-! ## Lemmas for the search resolver -/

theorem extended_search_fold_ok (nonce u : List Char) (tv : List Char)
    (htv : get_searching_typed_value nonce
      (get_searching_django_lookup nonce FilterLookups.I_LIKE u) u = .ok tv) :
    ∀ (routes : List String) (q : Q),
      extended_search_fold nonce u routes q =
        .ok (routes.foldl
          (fun acc r => acc.orQ (build_django_q r
            (get_searching_django_lookup nonce FilterLookups.I_LIKE u)
            FilterLookups.I_LIKE (.str tv))) q) := by
  intro routes
  induction routes with
  | nil => intro q; rfl
  | cons r rest ih =>
    intro q
    simp only [extended_search_fold, htv, List.foldl_cons]
    exact ih _

theorem search_filters_fold_cons (P : ExternalParsers) (st : FilterState)
    (nonce u : List Char) (n : String) (rest : List String) (q : Q)
    (d : Bool) :
    search_filters_fold P st nonce u (n :: rest) q d =
      match build_q_for_registered_filter_q P st nonce n "ilike" u none with
      | .error e => (.error e, registered_filter_distinct st n d)
      | .ok qn =>
        search_filters_fold P st nonce u rest (q.orQ qn)
          (registered_filter_distinct st n d) := by
  simp only [search_filters_fold, build_q_for_registered_filter]
  cases build_q_for_registered_filter_q P st nonce n "ilike" u none <;> rfl

theorem search_filters_fold_ok (P : ExternalParsers) (st : FilterState)
    (nonce u : List Char) :
    ∀ (names : List String) (q : Q) (d : Bool) (qf : Q) (df : Bool),
      search_filters_fold P st nonce u names q d = (.ok qf, df) →
      qf = names.foldl
        (fun acc n => acc.orQ
          (match build_q_for_registered_filter_q P st nonce n "ilike" u
              none with
            | .ok qn => qn
            | .error _ => Q.empty)) q := by
  intro names
  induction names with
  | nil =>
    intro q d qf df h
    simp only [search_filters_fold, Prod.mk.injEq] at h
    simp [← (Except.ok.inj h.1 : q = qf)]
  | cons n rest ih =>
    intro q d qf df h
    rw [search_filters_fold_cons] at h
    cases hq : build_q_for_registered_filter_q P st nonce n "ilike" u
        none with
    | error e => rw [hq] at h; simp at h
    | ok qn =>
      rw [hq] at h
      simp only [List.foldl_cons, hq]
      exact ih _ _ _ _ h

theorem foldl_orQ_ne_empty {α : Type} (f : α → Q) :
    ∀ (l : List α) (q : Q), q ≠ Q.empty →
      l.foldl (fun acc x => acc.orQ (f x)) q ≠ Q.empty := by
  intro l
  induction l with
  | nil => intro q hq; exact hq
  | cons x xs ih =>
    intro q hq
    simp only [List.foldl_cons]
    apply ih
    cases hfx : f x with
    | empty => cases q <;> simp_all [Q.orQ]
    | _ => exact orQ_ne_empty _ _ (by simp [hfx])

theorem search_filters_fold_ok_each (P : ExternalParsers) (st : FilterState)
    (nonce u : List Char) :
    ∀ (names : List String) (q : Q) (d : Bool) (qf : Q) (df : Bool),
      search_filters_fold P st nonce u names q d = (.ok qf, df) →
      ∀ n ∈ names, ∃ qn,
        build_q_for_registered_filter_q P st nonce n "ilike" u none =
          .ok qn := by
  intro names
  induction names with
  | nil => intro q d qf df _ n hn; simp at hn
  | cons n0 rest ih =>
    intro q d qf df h n hn
    rw [search_filters_fold_cons] at h
    cases hq : build_q_for_registered_filter_q P st nonce n0 "ilike" u
        none with
    | error e => rw [hq] at h; simp at h
    | ok qn0 =>
      rw [hq] at h
      rcases List.mem_cons.mp hn with rfl | hn2
      · exact ⟨qn0, hq⟩
      · exact ih _ _ _ _ h n hn2

/-- C5: only the equality operator is accepted by the free-text search
resolver — anything else is a parsing error naming the operator; the raw
value is quote-stripped and wildcard-normalized (a wildcard is prefixed
and appended where missing, so a bare term becomes a contains-search); the
search lookup is always one of the case-insensitive lookups; and the
result OR-combines one `ilike` leaf per extended raw search target with
the ordinary predicate-builder result of every search-eligible filter. -/
theorem C5_search_resolver :
    (∀ (P : ExternalParsers) (st : FilterState) (nonce : List Char)
        (op : String) (v : List Char) (d : Bool), op ≠ "eq" →
      build_q_for_search P st nonce op v d =
        (.error (.parsingError ("Bad search filter: " ++ op ++ ".")), d)) ∧
    (∀ v : List Char,
      (search_normalized_value v).head? = some RQL_ANY_SYMBOL ∧
      (search_normalized_value v).getLast? = some RQL_ANY_SYMBOL) ∧
    (∀ v : List Char,
      (remove_quotes v).head? ≠ some RQL_ANY_SYMBOL →
      (remove_quotes v).getLast? ≠ some RQL_ANY_SYMBOL →
      remove_quotes v ≠ [] →
      search_normalized_value v =
        RQL_ANY_SYMBOL :: (remove_quotes v ++ [RQL_ANY_SYMBOL])) ∧
    (∀ (nonce u : List Char),
      get_searching_django_lookup nonce FilterLookups.I_LIKE u ∈
        ([.I_EXACT, .I_REGEX, .I_CONTAINS, .I_STARTSWITH, .I_ENDSWITH] :
          List DjangoLookups)) ∧
    (∀ (P : ExternalParsers) (st : FilterState) (nonce : List Char)
        (v : List Char) (d : Bool) (qf : Q) (df : Bool) (tv : List Char),
      build_q_for_search P st nonce "eq" v d = (.ok qf, df) →
      get_searching_typed_value nonce
        (get_searching_django_lookup nonce FilterLookups.I_LIKE
          (search_normalized_value v)) (search_normalized_value v) = .ok tv →
      (∀ n ∈ st.search_filters,
        build_q_for_registered_filter_q P st nonce n "ilike"
          (search_normalized_value v) none ≠ .ok Q.empty) →
      qf = st.search_filters.foldl
        (fun acc n => acc.orQ
          (match build_q_for_registered_filter_q P st nonce n "ilike"
              (search_normalized_value v) none with
            | .ok qn => qn
            | .error _ => Q.empty))
        (st.extended_search_orm_routes.foldl
          (fun acc r => acc.orQ (build_django_q r
            (get_searching_django_lookup nonce FilterLookups.I_LIKE
              (search_normalized_value v))
            FilterLookups.I_LIKE (.str tv))) Q.empty) ∧
      (∀ ρ, qf.eval ρ =
        (if st.extended_search_orm_routes.isEmpty ∧
            st.search_filters.isEmpty then true
          else
            (st.extended_search_orm_routes.any (fun r =>
              ρ ⟨r, get_searching_django_lookup nonce FilterLookups.I_LIKE
                (search_normalized_value v), .str tv⟩) ||
             st.search_filters.any (fun n =>
               (match build_q_for_registered_filter_q P st nonce n "ilike"
                   (search_normalized_value v) none with
                 | .ok qn => qn
                 | .error _ => Q.empty).eval ρ))))) := by
  refine ⟨?_, ?_, ?_, ?_, ?_⟩
  · intro P st nonce op v d hop
    unfold build_q_for_search
    rw [if_pos hop]
  · intro v
    simp only [search_normalized_value]
    by_cases hh : (remove_quotes v).head? = some RQL_ANY_SYMBOL
    · rw [if_neg (not_not_intro hh)]
      by_cases hl : (remove_quotes v).getLast? = some RQL_ANY_SYMBOL
      · rw [if_neg (not_not_intro hl)]
        exact ⟨hh, hl⟩
      · rw [if_pos hl]
        obtain ⟨w, hw⟩ : ∃ w, remove_quotes v = RQL_ANY_SYMBOL :: w := by
          cases hu : remove_quotes v with
          | nil => rw [hu] at hh; simp at hh
          | cons c w =>
            rw [hu] at hh
            simp only [List.head?_cons, Option.some.injEq] at hh
            exact ⟨w, by rw [hh]⟩
        refine ⟨?_, List.getLast?_concat _⟩
        rw [hw, List.cons_append]
        rfl
    · rw [if_pos hh]
      by_cases hl :
          (('*' :: remove_quotes v).getLast? = some RQL_ANY_SYMBOL)
      · rw [if_neg (not_not_intro hl)]
        exact ⟨rfl, hl⟩
      · rw [if_pos hl]
        refine ⟨?_, List.getLast?_concat _⟩
        rw [List.cons_append]
        rfl
  · intro v hh hl hne
    simp only [search_normalized_value]
    rw [if_pos hh]
    obtain ⟨y, ys, hyy⟩ : ∃ y ys, remove_quotes v = y :: ys := by
      cases hu : remove_quotes v with
      | nil => exact absurd hu hne
      | cons y ys => exact ⟨y, ys, rfl⟩
    have hc2 : ¬('*' :: remove_quotes v).getLast? = some RQL_ANY_SYMBOL := by
      intro hcon
      apply hl
      rw [hyy] at hcon
      rw [List.getLast?_cons_cons] at hcon
      rw [hyy]
      exact hcon
    rw [if_pos hc2]
    rfl
  · intro nonce u
    unfold get_searching_django_lookup
    cases searching_pattern (reflect_like_value nonce u) <;>
      simp [pattern_lookup]
  · intro P st nonce v d qf df tv hok htv hne
    simp only [build_q_for_search, if_neg (show ¬("eq" : String) ≠ "eq" by
      simp), build_q_for_extended_search,
      extended_search_fold_ok nonce (search_normalized_value v) tv htv]
      at hok
    have heach := search_filters_fold_ok_each P st nonce
      (search_normalized_value v) st.search_filters _ d qf df hok
    have hqf := search_filters_fold_ok P st nonce
      (search_normalized_value v) st.search_filters _ d qf df hok
    refine ⟨hqf, ?_⟩
    intro ρ
    have hcomp : ∀ n ∈ st.search_filters,
        (match build_q_for_registered_filter_q P st nonce n "ilike"
            (search_normalized_value v) none with
          | .ok qn => qn
          | .error _ => Q.empty) ≠ Q.empty := by
      intro n hn
      obtain ⟨qn, hq⟩ := heach n hn
      rw [hq]
      show qn ≠ Q.empty
      intro hqe
      exact hne n hn (by rw [hq, hqe])
    subst hqf
    cases hroutes : st.extended_search_orm_routes with
    | nil =>
      simp only [List.foldl_nil]
      rw [eval_foldl_orQ_empty ρ _ st.search_filters hcomp]
      simp
    | cons r rs =>
      have hleaf : ∀ r' : String,
          build_django_q r' (get_searching_django_lookup nonce
            FilterLookups.I_LIKE (search_normalized_value v))
            FilterLookups.I_LIKE (.str tv) =
          Q.leaf ⟨r', get_searching_django_lookup nonce FilterLookups.I_LIKE
            (search_normalized_value v), .str tv⟩ := by
        intro r'
        unfold build_django_q
        rw [if_neg (by simp)]
      have hq0ne : (r :: rs).foldl
          (fun acc r' => acc.orQ (build_django_q r'
            (get_searching_django_lookup nonce FilterLookups.I_LIKE
              (search_normalized_value v))
            FilterLookups.I_LIKE (.str tv))) Q.empty ≠ Q.empty := by
        simp only [List.foldl_cons, orQ_empty_left, hleaf]
        exact foldl_orQ_ne_empty _ rs _ (by simp)
      rw [eval_foldl_orQ ρ _ st.search_filters _ hq0ne hcomp,
        eval_foldl_orQ_empty ρ _ (r :: rs)
          (fun r' _ => build_django_q_ne_empty r' _ _ _)]
      simp [hleaf, Q.eval]

/-- Witness for C5: searching for the bare term `fo` over one extended
route and one search-eligible filter yields the OR of the two
case-insensitive contains leaves. -/
theorem C5_search_resolver_witness :
    Q.or (.leaf ⟨"ext__route", .I_CONTAINS, .str "fo".data⟩)
        (.leaf ⟨"name", .I_CONTAINS, .str "fo".data⟩) =
      st_c5.search_filters.foldl
        (fun acc n => acc.orQ
          (match build_q_for_registered_filter_q test_parsers st_c5 nonce0 n
              "ilike" (search_normalized_value "fo".data) none with
            | .ok qn => qn
            | .error _ => Q.empty))
        (st_c5.extended_search_orm_routes.foldl
          (fun acc r => acc.orQ (build_django_q r
            (get_searching_django_lookup nonce0 FilterLookups.I_LIKE
              (search_normalized_value "fo".data))
            FilterLookups.I_LIKE (.str "fo".data))) Q.empty) := by
  have hne : ∀ n ∈ st_c5.search_filters,
      build_q_for_registered_filter_q test_parsers st_c5 nonce0 n "ilike"
        (search_normalized_value "fo".data) none ≠ .ok Q.empty := by
    intro n hn
    have hn' : n = "name" := by
      simpa [st_c5, mk_state] using hn
    subst hn'
    intro hcontra
    have h2 : (Except.ok (Q.leaf ⟨"name", .I_CONTAINS, .str "fo".data⟩) :
        Except RQLError Q) = .ok Q.empty := hcontra
    injection h2 with h3
    exact Q.noConfusion h3
  exact (C5_search_resolver.2.2.2.2 test_parsers st_c5 nonce0 "fo".data
    false _ false "fo".data rfl rfl hne).1

/-! ## Lemmas for the selection resolver -/

/-- The mapping invariant of `_build_rql_select`: every explicitly
included path is currently marked `True`. -/
def SelInv (st : SelState) : Prop :=
  ∀ p ∈ st.inclusions, dict_get st.rql_select p = some true

theorem sel_inv_include :
    ∀ (parts : List String) (tree : SelectTree) (pp : String)
      (st st' : SelState), SelInv st →
      rql_select_include tree pp parts st = .ok st' → SelInv st' := by
  intro parts
  induction parts with
  | nil =>
    intro tree pp st st' hinv h
    simp only [rql_select_include] at h
    cases h
    exact hinv
  | cons part rest ih =>
    intro tree pp st st' hinv h
    simp only [rql_select_include] at h
    cases hlk : List.lookup part tree.fields with
    | none => simp [hlk] at h
    | some sub =>
      simp only [hlk] at h
      by_cases hex : part ∈ st.exclusions
      · rw [if_pos hex] at h; simp at h
      · rw [if_neg hex] at h
        by_cases hfb : (pp ++ ".") ∈ st.forbidden_inclusions
        · rw [if_pos hfb] at h; simp at h
        · rw [if_neg hfb] at h
          have hinv1 : SelInv
              { st with
                inclusions := set_add st.inclusions (pp ++ part)
                rql_select := dict_set st.rql_select (pp ++ part) true } := by
            intro p hp
            simp only at hp ⊢
            rcases (mem_set_add _ _ _).mp hp with hp2 | rfl
            · by_cases hpe : p = pp ++ part
              · subst hpe; exact dict_get_set_self _ _ _
              · rw [dict_get_set_ne _ _ _ _ hpe]
                exact hinv p hp2
            · exact dict_get_set_self _ _ _
          cases rest with
          | nil =>
            simp only at h
            cases h
            intro p hp
            exact hinv1 p hp
          | cons r2 rs2 =>
            simp only at h
            exact ih sub (pp ++ part ++ ".") _ st' hinv1 h

theorem sel_inv_exclude_walk :
    ∀ (parts : List String) (tree : SelectTree) (pp : String)
      (st st' : SelState), SelInv st →
      rql_select_exclude_walk tree pp parts st = .ok st' → SelInv st' := by
  intro parts
  induction parts with
  | nil =>
    intro tree pp st st' hinv h
    simp only [rql_select_exclude_walk] at h
    cases h
    exact hinv
  | cons part rest ih =>
    intro tree pp st st' hinv h
    simp only [rql_select_exclude_walk] at h
    cases hlk : List.lookup part tree.fields with
    | none => simp [hlk] at h
    | some sub =>
      simp only [hlk] at h
      cases rest with
      | nil =>
        simp only at h
        cases h
        intro p hp
        exact hinv p hp
      | cons r2 rs2 =>
        simp only at h
        exact ih sub _ _ st' hinv h

theorem sel_inv_token (tree : SelectTree) (st st' : SelState) (tok : String)
    (hinv : SelInv st) (h : rql_select_token tree st tok = .ok st') :
    SelInv st' := by
  unfold rql_select_token at h
  by_cases hin : select_token_is_included tok
  · rw [if_pos hin] at h
    exact sel_inv_include _ tree "" st st' hinv h
  · rw [if_neg hin] at h
    by_cases hmem : select_token_name tok ∈ st.inclusions
    · rw [if_pos hmem] at h; simp at h
    · rw [if_neg hmem] at h
      refine sel_inv_exclude_walk _ tree "" _ st' ?_ h
      intro p hp
      simp only at hp ⊢
      rw [dict_get_set_ne _ _ _ _
        (fun hpe => hmem (by rw [← hpe]; exact hp))]
      exact hinv p hp

theorem sel_inv_tokens (tree : SelectTree) :
    ∀ (toks : List String) (st st' : SelState), SelInv st →
      rql_select_tokens tree toks st = .ok st' → SelInv st' := by
  intro toks
  induction toks with
  | nil =>
    intro st st' hinv h
    simp only [rql_select_tokens] at h
    cases h
    exact hinv
  | cons t ts ih =>
    intro st st' hinv h
    simp only [rql_select_tokens] at h
    cases ht : rql_select_token tree st t with
    | error e => simp [ht] at h
    | ok st1 =>
      simp only [ht] at h
      exact ih st1 st' (sel_inv_token tree st st1 t hinv ht) h

/-- C7 counterexample: excluding `a.b` and then including `a.b` again is
NOT rejected — the exclusion check compares path segments against full
excluded names, so only a top-level excluded ancestor blocks re-inclusion —
and the final mapping marks `a.b` as included. -/
theorem C7_selection_conflict_cex :
    select_token_is_included "-a.b" = false ∧
    build_rql_select [] sel_tree_ab ["-a.b", "a.b"] =
      .ok [("a.b", true), ("a", true)] :=
  ⟨rfl, rfl⟩

theorem include_excluded_segment_error :
    ∀ (parts : List String) (tree : SelectTree) (pp : String)
      (st : SelState), (∃ p ∈ parts, p ∈ st.exclusions) →
      rql_select_include tree pp parts st = .error .runtimeError := by
  intro parts
  induction parts with
  | nil =>
    rintro tree pp st ⟨p, hp, -⟩
    simp at hp
  | cons part rest ih =>
    rintro tree pp st ⟨p, hp, hpe⟩
    simp only [rql_select_include]
    cases hlk : List.lookup part tree.fields with
    | none => rfl
    | some sub =>
      simp only [hlk]
      by_cases hex : part ∈ st.exclusions
      · rw [if_pos hex]
      · rw [if_neg hex]
        by_cases hfb : (pp ++ ".") ∈ st.forbidden_inclusions
        · rw [if_pos hfb]
        · rw [if_neg hfb]
          have hprest : p ∈ rest := by
            rcases List.mem_cons.mp hp with rfl | h2
            · exact absurd hpe hex
            · exact h2
          cases rest with
          | nil => simp at hprest
          | cons r2 rs2 =>
            exact ih sub (pp ++ part ++ ".") _ ⟨p, hprest, hpe⟩

/-- C7 (amended): an inclusion token one of whose path segments equals the
full name of a previously excluded path (in particular, a top-level
excluded ancestor) is rejected as malformed, and so is any exclusion of an
already-included path — but a deeper excluded ancestor does not block
re-inclusion (see the counterexample).  Sibling leaf inclusions are
accepted, and on success the output mapping marks every path in (potential
sibling exclusions ∪ schema-declared default-hidden paths) minus the
explicit inclusions as excluded, and every included path prefix as
included. -/
theorem C7_selection_resolution :
    (∀ (parts : List String) (tree : SelectTree) (pp : String)
        (st : SelState), (∃ p ∈ parts, p ∈ st.exclusions) →
      rql_select_include tree pp parts st = .error .runtimeError) ∧
    (∀ (tree : SelectTree) (st : SelState) (tok : String),
      select_token_is_included tok = false →
      select_token_name tok ∈ st.inclusions →
      rql_select_token tree st tok = .error .runtimeError) ∧
    (∀ (defaults : List String) (tree : SelectTree) (select : List String)
        (st' : SelState) (m : List (String × Bool)),
      rql_select_tokens tree select ⟨[], [], [], [], []⟩ = .ok st' →
      build_rql_select defaults tree select = .ok m →
      (∀ e, e ∈ st'.potential_exclusions ++ defaults →
        e ∉ st'.inclusions → dict_get m e = some false) ∧
      (∀ p ∈ st'.inclusions, dict_get m p = some true)) ∧
    (build_rql_select [] sel_tree_abcd ["a.b", "a.c"] =
      .ok [("a", true), ("a.b", true), ("a.c", true), ("a.d", false)]) := by
  refine ⟨include_excluded_segment_error, ?_, ?_, rfl⟩
  · intro tree st tok hni hmem
    unfold rql_select_token
    rw [if_neg (by simp [hni]), if_pos hmem]
  · intro defaults tree select st' m hrun hm
    unfold build_rql_select at hm
    rw [hrun] at hm
    have hmeq : m =
        ((st'.potential_exclusions ++ defaults).filter
          (fun e => e ∉ st'.inclusions)).foldl
          (fun d e => dict_set d e false) st'.rql_select := by
      have := Except.ok.inj hm
      exact this.symm
    subst hmeq
    have hinv : SelInv st' :=
      sel_inv_tokens tree select _ st'
        (fun p hp => absurd hp (List.not_mem_nil p)) hrun
    constructor
    · intro e he hni
      exact dict_get_fold_false_of_mem _ _ e
        (List.mem_filter.mpr ⟨he, by simpa using hni⟩)
    · intro p hp
      rw [dict_get_fold_false_of_not_mem _ _ p ?_]
      · exact hinv p hp
      · intro e he
        have : e ∉ st'.inclusions := by
          have := (List.mem_filter.mp he).2
          simpa using this
        exact fun hep => this (hep ▸ hp)

/-- Witness for C7: including a path whose first segment is the excluded
top-level name `a` is rejected. -/
theorem C7_selection_resolution_witness :
    rql_select_include sel_tree_ab "" ["a", "b"]
      ⟨[("a", false)], ["a"], [], [], []⟩ = .error .runtimeError :=
  C7_selection_resolution.1 ["a", "b"] sel_tree_ab ""
    ⟨[("a", false)], ["a"], [], [], []⟩
    ⟨"a", by decide, by decide⟩

end DjRql
